import Mathlib

/-!
Verification development for the spectral-clustering-visualizer repository.

The embedded code is the clustering service module (dataset generation, mock
cluster assignment, metric synthesis, CSV parsing) and the result aggregator
of the application component.

Modelling conventions:
* JavaScript numbers are idealised as exact rationals (`ℚ`).  The only places
  where a non-finite value (NaN / Infinity) can arise in the embedded code are
  the division `i / (n_samples_out - 1)` in the moons generator and the result
  of `parseFloat` on a non-numeric CSV field; both are modelled with `Option ℚ`
  (`none` = not a finite number).
* `Math.random()` is modelled by an explicit stream of draws `g : ℕ → ℚ`;
  theorems that depend on the contract of `Math.random` assume
  `∀ i, 0 ≤ g i ∧ g i < 1`.  The source consumes one global stream
  sequentially; the model hands each consumer its own stream, which is sound
  because every theorem quantifies over all streams.
* `Math.sqrt` appears in the source only to compare Euclidean distances with
  each other or with the constant threshold `0.75`.  Since the square root is
  strictly monotone on nonnegative reals, the model compares squared
  distances with squared thresholds; the bridge to the real square root is
  proved in the theorem about the radius-threshold rule.
* JavaScript strings are modelled as `List Char`; `split`, `trim` and
  `parseFloat` are given executable structural models below.
-/

namespace SCV

/-- Dataset selector, from `types.ts` (`enum DatasetType`). -/
inductive DatasetType where
  | Moons
  | Blobs
  | Circles
  | Custom
  deriving DecidableEq, Repr

/-- Linkage selector for agglomerative clustering, from `types.ts`. -/
inductive LinkageType where
  | ward
  | complete
  | average
  | single
  deriving DecidableEq, Repr

/-- A 2-D point with an optional cluster label, from `types.ts`
(`interface Point`).  `cluster` is absent (`none`) until an assignment step
runs; the DBSCAN path uses the sentinel `-1` for noise. -/
structure Point where
  x : ℚ
  y : ℚ
  cluster : Option ℤ := none
  deriving DecidableEq, Repr

/-- The three synthetic quality scores, from `types.ts` (`interface Metrics`). -/
structure Metrics where
  silhouette : ℚ
  calinskiHarabasz : ℚ
  daviesBouldin : ℚ
  deriving DecidableEq, Repr

/-- Per-algorithm parameter bundles, from `types.ts`
(`interface AlgorithmParameters`).  The parameter payload carried by a
`ClusterResult` (`params: Record<string, any>` in the source) is modelled by
the sum of the four bundle shapes. -/
inductive AlgoParams where
  | spectral (n_clusters : ℤ)
  | kmeans (n_clusters : ℤ)
  | agglomerative (n_clusters : ℤ) (linkage : LinkageType)
  | dbscan (eps : ℚ)
  deriving DecidableEq, Repr

/-- Configuration bundle with one sub-configuration per algorithm, from
`types.ts`. -/
structure AlgorithmParameters where
  spectral_n_clusters : ℤ
  kmeans_n_clusters : ℤ
  agglomerative_n_clusters : ℤ
  agglomerative_linkage : LinkageType
  dbscan_eps : ℚ
  deriving DecidableEq, Repr

/-- One result record per algorithm, from `types.ts`
(`interface ClusterResult`). -/
structure ClusterResult where
  algorithm : String
  data : List Point
  metrics : Metrics
  params : AlgoParams
  deriving DecidableEq, Repr

/-! ### Text model: JavaScript string primitives on `List Char` -/

/-- Models JavaScript `text.split(sep)` for a one-character separator: splits
at every occurrence, keeping empty segments (`"a,,b"` → `["a","","b"]`,
`""` → `[""]`). -/
def splitOnChar (sep : Char) (cs : List Char) : List (List Char) :=
  cs.foldr (fun c acc =>
    match acc with
    | [] => [[c]]
    | seg :: rest => if c = sep then [] :: seg :: rest else (c :: seg) :: rest) [[]]

/-- Models JavaScript `String.prototype.trim`: drops leading and trailing
whitespace. -/
def trimChars (cs : List Char) : List Char :=
  ((cs.dropWhile Char.isWhitespace).reverse.dropWhile Char.isWhitespace).reverse

/-- Numeric value of a run of decimal digit characters. -/
def digitsToNat (cs : List Char) : ℕ :=
  cs.foldl (fun a c => 10 * a + (c.toNat - 48)) 0

/-- Exponent part of a JavaScript float literal: optional sign followed by at
least one digit; `none` when no digit follows (in which case `parseFloat`
ignores the exponent marker). -/
def parseExp (cs : List Char) : Option ℤ :=
  let sgnRest : ℤ × List Char :=
    match cs with
    | '-' :: r => (-1, r)
    | '+' :: r => (1, r)
    | _ => (1, cs)
  let ds := sgnRest.2.takeWhile Char.isDigit
  if ds.isEmpty then none else some (sgnRest.1 * digitsToNat ds)

/-- Models JavaScript `parseFloat` on an already-trimmed string: an optional
sign, decimal digits with an optional fractional part, and an optional
exponent, parsed as the longest valid prefix; `none` models the NaN result
when no digits are found.  (The special literal `Infinity` accepted by
`parseFloat` is not modelled; it is non-finite, like NaN.) -/
def parseFloatM (s : List Char) : Option ℚ :=
  let sgnRest : ℚ × List Char :=
    match s with
    | '-' :: r => (-1, r)
    | '+' :: r => (1, r)
    | _ => (1, s)
  let ds := sgnRest.2.takeWhile Char.isDigit
  let afterInt := sgnRest.2.dropWhile Char.isDigit
  let fs :=
    match afterInt with
    | '.' :: r => r.takeWhile Char.isDigit
    | _ => []
  let afterFrac :=
    match afterInt with
    | '.' :: r => r.dropWhile Char.isDigit
    | _ => afterInt
  if ds.isEmpty ∧ fs.isEmpty then none
  else
    let mant : ℚ := sgnRest.1 * ((digitsToNat ds : ℚ) + (digitsToNat fs : ℚ) / 10 ^ fs.length)
    match afterFrac with
    | 'e' :: r =>
      match parseExp r with
      | some z => some (mant * 10 ^ z)
      | none => some mant
    | 'E' :: r =>
      match parseExp r with
      | some z => some (mant * 10 ^ z)
      | none => some mant
    | _ => some mant

/-! ### CSV ingestor (`parseCSV` in `clusteringService.ts`)

The file-reader plumbing (`FileReader`, promise resolution) is not part of the
computation; the model takes the file contents directly and returns
`Except String _` for the `throw`/`resolve` outcome. -/

/-- A parsed CSV point.  The source builds `{ x: row[0], y: row[1] }`; an
out-of-bounds index yields JavaScript `undefined`, modelled as `none`. -/
structure CSVPoint where
  x : Option ℚ
  y : Option ℚ
  deriving DecidableEq, Repr

/-- Models `text.split('\n').filter(row => row.trim() !== '')`. -/
def nonBlankLines (text : List Char) : List (List Char) :=
  (splitOnChar '\n' text).filter (fun row => !(trimChars row).isEmpty)

/-- Models the per-row body of the `numericData` map in `parseCSV`: split the
row at commas, parse every trimmed field, optionally drop the last field, and
keep the row only when every remaining field parsed as a number. -/
def numericRow (dropLastColumn : Bool) (row : List Char) : Option (List ℚ) :=
  let values := (splitOnChar ',' row).map (fun v => parseFloatM (trimChars v))
  let values := if dropLastColumn then values.dropLast else values
  if values.all Option.isSome then some (values.map (fun o => o.getD 0)) else none

/-- The surviving fully-numeric data rows of the file: everything after the
header line, mapped through `numericRow` and filtered (`.map(...).filter(row
=> row !== null)` in the source). -/
def numericRows (text : List Char) (dropLastColumn : Bool) : List (List ℚ) :=
  ((nonBlankLines text).drop 1).filterMap (numericRow dropLastColumn)

/-- Models `parseCSV` from `clusteringService.ts` (lines 229-273): the
validation/throw structure and the final `{ x: row[0], y: row[1] }` mapping. -/
def parseCSV (text : List Char) (dropLastColumn : Bool) : Except String (List CSVPoint) :=
  let rows := nonBlankLines text
  if rows.length < 2 then
    Except.error "CSV file must contain a header and at least one data row."
  else
    match numericRows text dropLastColumn with
    | [] => Except.error "No valid numeric data rows found in the CSV file."
    | r0 :: rest =>
      if r0.length < 2 then
        Except.error ("The processed data has only " ++ toString r0.length ++
          " feature(s). At least two are required for 2D visualization.")
      else
        Except.ok ((r0 :: rest).map (fun r => { x := r.get? 0, y := r.get? 1 }))

/-! ### Mock assignment engine (`clusteringService.ts`) -/

/-- Squared Euclidean distance between two points.  The source computes
`Math.sqrt(Math.pow(point.x - mean.x, 2) + Math.pow(point.y - mean.y, 2))` and
only ever compares such values with each other; comparing the squares is
equivalent because the square root is strictly monotone on nonnegative
reals. -/
def distSq (p q : Point) : ℚ :=
  (p.x - q.x) ^ 2 + (p.y - q.y) ^ 2

/-- Models the `forEach` loop of `assignClustersByCentroids`: running index of
the closest centroid so far together with the smallest (squared) distance so
far; `none` models the initial `minDistance = Infinity`. -/
def closestMean (p : Point) (means : List Point) : ℕ × Option ℚ :=
  means.enum.foldl (fun acc im =>
    let d := distSq p im.2
    match acc.2 with
    | none => (im.1, some d)
    | some m => if d < m then (im.1, some d) else acc) (0, none)

/-- Models `assignClustersByCentroids` (lines 93-111): pick `k` pseudo-centroids
by drawing random members of `data` (with replacement), then label every point
with the index of its nearest centroid.  `g` supplies the `Math.random()`
draws; the index `Math.floor(Math.random() * data.length)` is in range
whenever the draws satisfy the `[0,1)` contract. -/
def assignClustersByCentroids (data : List Point) (k : ℤ) (g : ℕ → ℚ) : List Point :=
  if data.length = 0 ∨ k ≤ 0 then []
  else
    let means := (List.range k.toNat).map (fun i =>
      data.getD (⌊g i * data.length⌋).toNat { x := 0, y := 0, cluster := none })
    data.map (fun p => { p with cluster := some ((closestMean p means).1 : ℤ) })

/-- Models `assignClustersByXSplit` (lines 79-87): sort by x ascending (the
stable JavaScript sort with comparator `a.x - b.x`) and assign
`min(k - 1, ⌊(index / totalPoints) * k⌋)` by sorted position. -/
def assignClustersByXSplit (data : List Point) (k : ℤ) : List Point :=
  if data.length = 0 ∨ k ≤ 0 then []
  else
    let sortedData := data.mergeSort (fun a b => decide (a.x ≤ b.x))
    let totalPoints := sortedData.length
    sortedData.enum.map (fun ip =>
      { ip.2 with
          cluster := some (min (k - 1) ⌊((ip.1 : ℚ) / (totalPoints : ℚ)) * (k : ℚ)⌋) })

/-- Models `parseFloat(x.toFixed(3))`: rounding to 3 decimal places, to the
nearest multiple of 1/1000 with ties toward positive infinity (the ECMAScript
`toFixed` picks the larger candidate on a tie). -/
def round3 (q : ℚ) : ℚ :=
  (⌊q * 1000 + 1 / 2⌋ : ℚ) / 1000

/-- Models `generateMockMetrics` (lines 113-123): three pseudo-random scores,
each rounded to 3 decimals.  The `data` argument is ignored, exactly as in the
source. -/
def generateMockMetrics (data : List Point) (g : ℕ → ℚ) : Metrics :=
  { silhouette := round3 (g 0 * (16 / 10) - 6 / 10)
    calinskiHarabasz := round3 (g 1 * 500 + 50)
    daviesBouldin := round3 (g 2 * (15 / 10) + 3 / 10) }

/-- The radius threshold of the circles branches (lines 136 and 203). -/
def radius_threshold : ℚ := 3 / 4

/-- Models the circles-branch labelling rule shared by the spectral and DBSCAN
mocks: `Math.sqrt(p.x*p.x + p.y*p.y) > 0.75` → cluster 0, else cluster 1
(compared via squares, see `distSq`). -/
def circleLabel (p : Point) : ℤ :=
  if p.x * p.x + p.y * p.y > radius_threshold ^ 2 then 0 else 1

/-- Models the moons-branch labelling rule shared by the spectral and DBSCAN
mocks: the first `⌊n/2⌋` points (by position) form cluster 0, the rest
cluster 1. -/
def moonsHalfLabel (n : ℕ) (i : ℕ) : ℤ :=
  if i < n / 2 then 0 else 1

/-- Models `runSpectralClustering` (lines 125-152).  `gc` supplies the draws
of the centroid path, `gm` the three draws of `generateMockMetrics`. -/
def runSpectralClustering (data : List Point) (n_clusters : ℤ) (datasetType : DatasetType)
    (gc gm : ℕ → ℚ) : ClusterResult :=
  let clusteredData :=
    match datasetType with
    | .Moons => data.enum.map (fun ip =>
        { ip.2 with cluster := some (moonsHalfLabel data.length ip.1) })
    | .Circles => data.map (fun p => { p with cluster := some (circleLabel p) })
    | _ => assignClustersByCentroids data n_clusters gc
  { algorithm := "Spectral Clustering"
    data := clusteredData
    metrics := generateMockMetrics clusteredData gm
    params := .spectral n_clusters }

/-- Models `runKMeans` (lines 154-171). -/
def runKMeans (data : List Point) (n_clusters : ℤ) (datasetType : DatasetType)
    (gc gm : ℕ → ℚ) : ClusterResult :=
  let clusteredData :=
    match datasetType with
    | .Moons => assignClustersByXSplit data n_clusters
    | .Circles => assignClustersByXSplit data n_clusters
    | _ => assignClustersByCentroids data n_clusters gc
  { algorithm := "K-Means"
    data := clusteredData
    metrics := generateMockMetrics clusteredData gm
    params := .kmeans n_clusters }

/-- Models `runAgglomerativeClustering` (lines 173-190). -/
def runAgglomerativeClustering (data : List Point) (n_clusters : ℤ) (linkage : LinkageType)
    (datasetType : DatasetType) (gc gm : ℕ → ℚ) : ClusterResult :=
  let clusteredData :=
    match datasetType with
    | .Moons => assignClustersByXSplit data n_clusters
    | .Circles => assignClustersByXSplit data n_clusters
    | _ => assignClustersByCentroids data n_clusters gc
  { algorithm := "Agglomerative Clustering"
    data := clusteredData
    metrics := generateMockMetrics clusteredData gm
    params := .agglomerative n_clusters linkage }

/-- Models the noise re-labelling loop of the DBSCAN mock (lines 213-217):
`cnt` times, pick a uniformly random position and overwrite its cluster with
the sentinel `-1`.  A position may be picked more than once. -/
def markNoise (pts : List Point) (cnt : ℕ) (g : ℕ → ℚ) : List Point :=
  (List.range cnt).foldl (fun acc i =>
    let idx := (⌊g i * acc.length⌋).toNat
    match acc.get? idx with
    | some p => acc.set idx { p with cluster := some (-1) }
    | none => acc) pts

/-- Models `runDBSCAN` (lines 192-226).  `gc` supplies the centroid draws,
`gn` the noise-position draws, `gm` the metric draws. -/
def runDBSCAN (data : List Point) (eps : ℚ) (datasetType : DatasetType)
    (gc gn gm : ℕ → ℚ) : ClusterResult :=
  let clusteredData :=
    match datasetType with
    | .Moons => data.enum.map (fun ip =>
        { ip.2 with cluster := some (moonsHalfLabel data.length ip.1) })
    | .Circles => data.map (fun p => { p with cluster := some (circleLabel p) })
    | _ =>
      let assigned := assignClustersByCentroids data 3 gc
      markNoise assigned (⌊(data.length : ℚ) * (5 / 100)⌋).toNat gn
  { algorithm := "DBSCAN"
    data := clusteredData
    metrics := generateMockMetrics clusteredData gm
    params := .dbscan eps }

/-! ### Result aggregator (`runAnalysis` in the application component) -/

/-- The four mock runs of `runAnalysis`, in source order.  `g j` is the draw
stream handed to the j-th consumer of `Math.random()`. -/
def runAnalysisResults (data : List Point) (params : AlgorithmParameters)
    (datasetType : DatasetType) (g : ℕ → ℕ → ℚ) : List ClusterResult :=
  [runSpectralClustering data params.spectral_n_clusters datasetType (g 0) (g 1),
   runKMeans data params.kmeans_n_clusters datasetType (g 2) (g 3),
   runAgglomerativeClustering data params.agglomerative_n_clusters
     params.agglomerative_linkage datasetType (g 4) (g 5),
   runDBSCAN data params.dbscan_eps datasetType (g 6) (g 7) (g 8)]

/-- Accumulator of the `reduce` computing the cross-result maxima; `⊥` models
the `-Infinity` initial value of each field. -/
structure MaxMetrics where
  silhouette : WithBot ℚ
  calinskiHarabasz : WithBot ℚ
  daviesBouldin : WithBot ℚ
  deriving DecidableEq

/-- Models the `results.reduce(...)` fold of `runAnalysis` (lines 74-78): the
per-field maximum over the results, starting from `-Infinity` per field. -/
def maxMetricsFold (results : List ClusterResult) : MaxMetrics :=
  results.foldl (fun acc r =>
    { silhouette := max acc.silhouette (r.metrics.silhouette : WithBot ℚ)
      calinskiHarabasz := max acc.calinskiHarabasz (r.metrics.calinskiHarabasz : WithBot ℚ)
      daviesBouldin := max acc.daviesBouldin (r.metrics.daviesBouldin : WithBot ℚ) })
    { silhouette := ⊥, calinskiHarabasz := ⊥, daviesBouldin := ⊥ }

/-! ### Dataset generators (`clusteringService.ts` lines 5-69)

The generators evaluate `Math.cos` / `Math.sin` at multiples of π.  The model
abstracts them as total functions `cosPi sinPi : ℚ → ℚ` with `cosPi t`
standing for `cos (t * π)` (a total real function maps finite inputs to finite
outputs, which is all the claims need).  A coordinate is `Option ℚ`: `none`
models a non-finite JavaScript number.  The only division in the generators is
`i / (count - 1)`; when `count = 1` the loop only reaches `i = 0`, so a zero
denominator always means `0/0 = NaN`, and division is modelled by `jsDiv`. -/

/-- A generated point before cluster assignment; `none` coordinates model
non-finite (NaN) JavaScript numbers. -/
structure JPoint where
  x : Option ℚ
  y : Option ℚ
  deriving DecidableEq, Repr

/-- JavaScript division as used in the generators: `none` (non-finite) when
the denominator is zero. -/
def jsDiv (a b : ℚ) : Option ℚ :=
  if b = 0 then none else some (a / b)

/-- Models `generateMoons` (lines 5-28).  Draw order per point: x-noise then
y-noise; the second loop continues the stream. -/
def generateMoons (n_samples : ℕ) (noise : ℚ) (cosPi sinPi : ℚ → ℚ) (g : ℕ → ℚ) :
    List JPoint :=
  let n_samples_out := n_samples / 2
  let n_samples_in := n_samples - n_samples_out
  ((List.range n_samples_out).map (fun (i : ℕ) =>
    let t := jsDiv (i : ℚ) ((n_samples_out : ℚ) - 1)
    { x := t.map (fun a => cosPi a + (g (2 * i) - 1 / 2) * noise * 2)
      y := t.map (fun a => sinPi a + (g (2 * i + 1) - 1 / 2) * noise * 2) })) ++
  ((List.range n_samples_in).map (fun (i : ℕ) =>
    let t := jsDiv (i : ℚ) ((n_samples_in : ℚ) - 1)
    { x := t.map (fun a => 1 - cosPi a + (g (2 * n_samples_out + 2 * i) - 1 / 2) * noise * 2)
      y := t.map (fun a => 1 / 2 - sinPi a + (g (2 * n_samples_out + 2 * i + 1) - 1 / 2) * noise * 2) }))

/-- Models `generateBlobs` (lines 30-43): `centers` random centroids in
[-4,4]², then each point perturbs the centroid chosen round-robin by index. -/
def generateBlobs (n_samples centers : ℕ) (cluster_std : ℚ) (g : ℕ → ℚ) : List JPoint :=
  let centerPoints := (List.range centers).map (fun j =>
    ((g (2 * j) - 1 / 2) * 8, (g (2 * j + 1) - 1 / 2) * 8))
  (List.range n_samples).map (fun i =>
    let center := centerPoints.getD (i % centers) (0, 0)
    { x := some (center.1 + (g (2 * centers + 2 * i) - 1 / 2) * 2 * cluster_std)
      y := some (center.2 + (g (2 * centers + 2 * i + 1) - 1 / 2) * 2 * cluster_std) })

/-- Models `generateCircles` (lines 45-56): outer points are those with
`i >= n_samples / 2` (real division, i.e. `n ≤ 2i`); each point has a random
angle (`2 * draw` as a multiple of π) plus coordinate noise. -/
def generateCircles (n_samples : ℕ) (factor noise : ℚ) (cosPi sinPi : ℚ → ℚ)
    (g : ℕ → ℚ) : List JPoint :=
  (List.range n_samples).map (fun i =>
    let r : ℚ := if n_samples ≤ 2 * i then 1 else factor
    let t := 2 * g (3 * i)
    { x := some (r * cosPi t + (g (3 * i + 1) - 1 / 2) * noise * 2)
      y := some (r * sinPi t + (g (3 * i + 2) - 1 / 2) * noise * 2) })

/-- Models `generateDataset` (lines 58-69) with the source defaults
(`noise = 0.08`, `centers = 3`, `cluster_std = 0.5`, `factor = 0.5`,
`noise = 0.05`); the `default` branch returns the empty list. -/
def generateDataset (type : DatasetType) (n_samples : ℕ) (cosPi sinPi : ℚ → ℚ)
    (g : ℕ → ℚ) : List JPoint :=
  match type with
  | .Moons => generateMoons n_samples (8 / 100) cosPi sinPi g
  | .Blobs => generateBlobs n_samples 3 (1 / 2) g
  | .Circles => generateCircles n_samples (1 / 2) (5 / 100) cosPi sinPi g
  | .Custom => []

/-! ### Heap model of the four run operations

The frame claim about the run operations is about JavaScript object identity:
the runs build their outputs with `{...p, cluster}` (fresh objects) and the
DBSCAN noise loop mutates only those fresh objects.  To state this, the runs
are re-embedded against an explicit store: a `Heap` is the list of allocated
point objects, a reference is an index into it, and allocation appends.  The
labelling logic is shared with the pure model above. -/

/-- The store of allocated point objects; a reference is an index. -/
abbrev Heap := List Point

/-- Default cell used for modelling out-of-bounds reads. -/
def dfltPoint : Point := { x := 0, y := 0, cluster := none }

/-- One step of `mapSpread`: read the input object `ir.2`, allocate a fresh
copy with the cluster set to `f ir.1 (value)`, and record the fresh
reference. -/
def mapSpreadStep (f : ℕ → Point → Option ℤ) (acc : Heap × List ℕ) (ir : ℕ × ℕ) :
    Heap × List ℕ :=
  let v := acc.1.getD ir.2 dfltPoint
  (acc.1 ++ [{ v with cluster := f ir.1 v }], acc.2 ++ [acc.1.length])

/-- Models `data.map((p, i) => ({...p, cluster: f i p}))` against the store:
reads each input object and allocates a fresh copy with the cluster set. -/
def mapSpread (h : Heap) (refs : List ℕ) (f : ℕ → Point → Option ℤ) : Heap × List ℕ :=
  refs.enum.foldl (mapSpreadStep f) (h, [])

/-- Heap version of `assignClustersByCentroids`: the centroid picks only read
the store; the output objects are fresh. -/
def assignCentroidsH (h : Heap) (refs : List ℕ) (k : ℤ) (g : ℕ → ℚ) : Heap × List ℕ :=
  if refs.length = 0 ∨ k ≤ 0 then (h, [])
  else
    let means := (List.range k.toNat).map (fun i =>
      h.getD (refs.getD (⌊g i * refs.length⌋).toNat 0) dfltPoint)
    mapSpread h refs (fun _ v => some ((closestMean v means).1 : ℤ))

/-- Heap version of `assignClustersByXSplit`. -/
def assignXSplitH (h : Heap) (refs : List ℕ) (k : ℤ) : Heap × List ℕ :=
  if refs.length = 0 ∨ k ≤ 0 then (h, [])
  else
    let sortedRefs := refs.mergeSort (fun a b =>
      decide ((h.getD a dfltPoint).x ≤ (h.getD b dfltPoint).x))
    let totalPoints := sortedRefs.length
    mapSpread h sortedRefs (fun i _ =>
      some (min (k - 1) ⌊((i : ℚ) / (totalPoints : ℚ)) * (k : ℚ)⌋))

/-- Heap version of the DBSCAN noise loop: `clusteredData[idx].cluster = -1`
mutates the object stored at the picked reference. -/
def markNoiseH (h : Heap) (refs : List ℕ) (cnt : ℕ) (g : ℕ → ℚ) : Heap :=
  (List.range cnt).foldl (fun hh i =>
    let idx := (⌊g i * refs.length⌋).toNat
    let r := refs.getD idx 0
    hh.set r { hh.getD r dfltPoint with cluster := some (-1) }) h

/-- Heap version of `runSpectralClustering` (result data only; the metrics do
not touch the store). -/
def runSpectralH (h : Heap) (refs : List ℕ) (n_clusters : ℤ) (dt : DatasetType)
    (gc : ℕ → ℚ) : Heap × List ℕ :=
  match dt with
  | .Moons => mapSpread h refs (fun i _ => some (moonsHalfLabel refs.length i))
  | .Circles => mapSpread h refs (fun _ v => some (circleLabel v))
  | _ => assignCentroidsH h refs n_clusters gc

/-- Heap version of `runKMeans` (result data only). -/
def runKMeansH (h : Heap) (refs : List ℕ) (n_clusters : ℤ) (dt : DatasetType)
    (gc : ℕ → ℚ) : Heap × List ℕ :=
  match dt with
  | .Moons => assignXSplitH h refs n_clusters
  | .Circles => assignXSplitH h refs n_clusters
  | _ => assignCentroidsH h refs n_clusters gc

/-- Heap version of `runAgglomerativeClustering` (result data only). -/
def runAgglomerativeH (h : Heap) (refs : List ℕ) (n_clusters : ℤ) (dt : DatasetType)
    (gc : ℕ → ℚ) : Heap × List ℕ :=
  match dt with
  | .Moons => assignXSplitH h refs n_clusters
  | .Circles => assignXSplitH h refs n_clusters
  | _ => assignCentroidsH h refs n_clusters gc

/-- Heap version of `runDBSCAN` (result data only): the noise loop mutates the
objects freshly allocated by the centroid step. -/
def runDBSCANH (h : Heap) (refs : List ℕ) (dt : DatasetType) (gc gn : ℕ → ℚ) :
    Heap × List ℕ :=
  match dt with
  | .Moons => mapSpread h refs (fun i _ => some (moonsHalfLabel refs.length i))
  | .Circles => mapSpread h refs (fun _ v => some (circleLabel v))
  | _ =>
    let out := assignCentroidsH h refs 3 gc
    (markNoiseH out.1 out.2 (⌊(refs.length : ℚ) * (5 / 100)⌋).toNat gn, out.2)

/-! ### Helper lemmas -/

/-- Lower bound for `round3`: if `c ≤ 1000 x` then `c/1000 ≤ round3 x`. -/
theorem le_round3 (c : ℤ) (x : ℚ) (h : (c : ℚ) ≤ 1000 * x) : (c : ℚ) / 1000 ≤ round3 x := by
  unfold round3
  have hfl : c ≤ ⌊x * 1000 + 1 / 2⌋ := Int.le_floor.mpr (by linarith)
  have : (c : ℚ) ≤ (⌊x * 1000 + 1 / 2⌋ : ℚ) := by exact_mod_cast hfl
  have h1000 : (0 : ℚ) < 1000 := by norm_num
  exact (div_le_div_iff_of_pos_right h1000).mpr this

/-- Upper bound for `round3`: if `1000 x ≤ c` then `round3 x ≤ c/1000`. -/
theorem round3_le (c : ℤ) (x : ℚ) (h : 1000 * x ≤ (c : ℚ)) : round3 x ≤ (c : ℚ) / 1000 := by
  unfold round3
  have hfl : ⌊x * 1000 + 1 / 2⌋ ≤ c := Int.floor_le_iff.mpr (by push_cast; linarith)
  have : ((⌊x * 1000 + 1 / 2⌋ : ℚ)) ≤ (c : ℚ) := by exact_mod_cast hfl
  have h1000 : (0 : ℚ) < 1000 := by norm_num
  exact (div_le_div_iff_of_pos_right h1000).mpr this

/-! ### Claim theorems -/

/-- C8: the metric synthesizer ignores its input (equal inputs under the same
draws give equal outputs — indeed any two inputs do), and for draws in [0,1)
each rounded field lies in its stated range: silhouette in [-0.6, 1.0],
Calinski-Harabasz in [50, 550], Davies-Bouldin in [0.3, 1.8]. -/
theorem generateMockMetrics_C8 (d1 d2 : List Point) (g : ℕ → ℚ)
    (hg : ∀ i, 0 ≤ g i ∧ g i < 1) :
    generateMockMetrics d1 g = generateMockMetrics d2 g ∧
    (-(6 / 10) ≤ (generateMockMetrics d1 g).silhouette ∧
      (generateMockMetrics d1 g).silhouette ≤ 1) ∧
    (50 ≤ (generateMockMetrics d1 g).calinskiHarabasz ∧
      (generateMockMetrics d1 g).calinskiHarabasz ≤ 550) ∧
    (3 / 10 ≤ (generateMockMetrics d1 g).daviesBouldin ∧
      (generateMockMetrics d1 g).daviesBouldin ≤ 18 / 10) := by
  obtain ⟨h0, h0'⟩ := hg 0
  obtain ⟨h1, h1'⟩ := hg 1
  obtain ⟨h2, h2'⟩ := hg 2
  refine ⟨rfl, ⟨?_, ?_⟩, ⟨?_, ?_⟩, ⟨?_, ?_⟩⟩
  · have := le_round3 (-600) (g 0 * (16 / 10) - 6 / 10) (by push_cast; linarith)
    simp only [generateMockMetrics]
    calc (-(6 / 10) : ℚ) = ((-600 : ℤ) : ℚ) / 1000 := by norm_num
    _ ≤ _ := this
  · have := round3_le 1000 (g 0 * (16 / 10) - 6 / 10) (by push_cast; linarith)
    simp only [generateMockMetrics]
    calc round3 (g 0 * (16 / 10) - 6 / 10) ≤ ((1000 : ℤ) : ℚ) / 1000 := this
    _ = 1 := by norm_num
  · have := le_round3 50000 (g 1 * 500 + 50) (by push_cast; linarith)
    simp only [generateMockMetrics]
    calc (50 : ℚ) = ((50000 : ℤ) : ℚ) / 1000 := by norm_num
    _ ≤ _ := this
  · have := round3_le 550000 (g 1 * 500 + 50) (by push_cast; linarith)
    simp only [generateMockMetrics]
    calc round3 (g 1 * 500 + 50) ≤ ((550000 : ℤ) : ℚ) / 1000 := this
    _ = 550 := by norm_num
  · have := le_round3 300 (g 2 * (15 / 10) + 3 / 10) (by push_cast; linarith)
    simp only [generateMockMetrics]
    calc (3 / 10 : ℚ) = ((300 : ℤ) : ℚ) / 1000 := by norm_num
    _ ≤ _ := this
  · have := round3_le 1800 (g 2 * (15 / 10) + 3 / 10) (by push_cast; linarith)
    simp only [generateMockMetrics]
    calc round3 (g 2 * (15 / 10) + 3 / 10) ≤ ((1800 : ℤ) : ℚ) / 1000 := this
    _ = 18 / 10 := by norm_num

/-- Witness for C8 at concrete inputs. -/
theorem generateMockMetrics_C8_witness :
    generateMockMetrics [] (fun _ => (1 : ℚ) / 2) =
      generateMockMetrics [{ x := 1, y := 2, cluster := none }] (fun _ => (1 : ℚ) / 2) ∧
    (-(6 / 10) ≤ (generateMockMetrics [] (fun _ => (1 : ℚ) / 2)).silhouette ∧
      (generateMockMetrics [] (fun _ => (1 : ℚ) / 2)).silhouette ≤ 1) ∧
    (50 ≤ (generateMockMetrics [] (fun _ => (1 : ℚ) / 2)).calinskiHarabasz ∧
      (generateMockMetrics [] (fun _ => (1 : ℚ) / 2)).calinskiHarabasz ≤ 550) ∧
    (3 / 10 ≤ (generateMockMetrics [] (fun _ => (1 : ℚ) / 2)).daviesBouldin ∧
      (generateMockMetrics [] (fun _ => (1 : ℚ) / 2)).daviesBouldin ≤ 18 / 10) :=
  generateMockMetrics_C8 [] [{ x := 1, y := 2, cluster := none }] (fun _ => (1 : ℚ) / 2)
    (fun _ => ⟨by norm_num, by norm_num⟩)

/-- C5: on Circles data the spectral mock and the DBSCAN mock label a point 0
exactly when its distance from the origin exceeds 0.75 and 1 otherwise, so the
output labels equal a direct recomputation of that predicate from the input
points; the embedded squared comparison coincides with the real
square-root-distance predicate. -/
theorem circles_rule_C5 (data : List Point) (n_clusters : ℤ) (eps : ℚ)
    (gc gm gc' gn gm' : ℕ → ℚ) :
    (runSpectralClustering data n_clusters .Circles gc gm).data.map Point.cluster
      = data.map (fun p => some (circleLabel p)) ∧
    (runDBSCAN data eps .Circles gc' gn gm').data.map Point.cluster
      = data.map (fun p => some (circleLabel p)) ∧
    (∀ p : Point, circleLabel p = 0 ↔
      Real.sqrt (((p.x : ℝ)) ^ 2 + ((p.y : ℝ)) ^ 2) > (3 / 4 : ℝ)) ∧
    (∀ p : Point, circleLabel p ≠ 0 → circleLabel p = 1) := by
  refine ⟨?_, ?_, ?_, ?_⟩
  · simp [runSpectralClustering, List.map_map]
  · simp [runDBSCAN, List.map_map]
  · intro p
    have hcast : (p.x * p.x + p.y * p.y : ℚ) > radius_threshold ^ 2 ↔
        ((p.x : ℝ)) ^ 2 + ((p.y : ℝ)) ^ 2 > ((3 / 4 : ℝ)) ^ 2 := by
      unfold radius_threshold
      constructor
      · intro h
        rw [gt_iff_lt] at h
        have h2 : ((((3 / 4 : ℚ)) ^ 2 : ℚ) : ℝ) < ((p.x * p.x + p.y * p.y : ℚ) : ℝ) :=
          Rat.cast_lt.mpr h
        push_cast at h2
        nlinarith [h2]
      · intro h
        rw [gt_iff_lt]
        have h2 : ((((3 / 4 : ℚ)) ^ 2 : ℚ) : ℝ) < ((p.x * p.x + p.y * p.y : ℚ) : ℝ) := by
          push_cast
          nlinarith [h]
        exact_mod_cast h2
    have hsq : ((3 / 4 : ℝ)) < Real.sqrt (((p.x : ℝ)) ^ 2 + ((p.y : ℝ)) ^ 2) ↔
        ((3 / 4 : ℝ)) ^ 2 < ((p.x : ℝ)) ^ 2 + ((p.y : ℝ)) ^ 2 :=
      Real.lt_sqrt (by norm_num)
    unfold circleLabel
    split_ifs with h
    · simpa using (hsq.mpr (hcast.mp h))
    · constructor
      · intro h10
        exact absurd h10 (by norm_num)
      · intro hgt
        exact absurd (hcast.mpr (hsq.mp hgt)) h
  · intro p
    unfold circleLabel
    split_ifs <;> simp

/-- Witness for C5 at a concrete two-point list. -/
theorem circles_rule_C5_witness :
    (runSpectralClustering [{ x := 1, y := 1, cluster := none },
        { x := 0, y := 0, cluster := none }] 2 DatasetType.Circles
        (fun _ => 0) (fun _ => 0)).data.map Point.cluster
      = ([{ x := 1, y := 1, cluster := none },
          { x := 0, y := 0, cluster := none }] : List Point).map
          (fun p => some (circleLabel p)) ∧
    (runDBSCAN [{ x := 1, y := 1, cluster := none },
        { x := 0, y := 0, cluster := none }] (1 / 2) DatasetType.Circles
        (fun _ => 0) (fun _ => 0) (fun _ => 0)).data.map Point.cluster
      = ([{ x := 1, y := 1, cluster := none },
          { x := 0, y := 0, cluster := none }] : List Point).map
          (fun p => some (circleLabel p)) ∧
    (∀ p : Point, circleLabel p = 0 ↔
      Real.sqrt (((p.x : ℝ)) ^ 2 + ((p.y : ℝ)) ^ 2) > (3 / 4 : ℝ)) ∧
    (∀ p : Point, circleLabel p ≠ 0 → circleLabel p = 1) :=
  circles_rule_C5 [{ x := 1, y := 1, cluster := none },
    { x := 0, y := 0, cluster := none }] 2 (1 / 2)
    (fun _ => 0) (fun _ => 0) (fun _ => 0) (fun _ => 0) (fun _ => 0)

/-- Helper: a surviving numeric row implies at least two non-blank lines (the
header plus at least the line the row came from). -/
theorem two_lines_of_numericRows_ne_nil {text : List Char} {flag : Bool}
    (h : numericRows text flag ≠ []) : 2 ≤ (nonBlankLines text).length := by
  by_contra hlt
  push_neg at hlt
  have hdrop : (nonBlankLines text).drop 1 = [] :=
    List.drop_eq_nil_of_le (by omega)
  have : numericRows text flag = [] := by
    unfold numericRows
    rw [hdrop]
    rfl
  exact h this

/-- Helper: the success branch of `parseCSV`: when the surviving numeric rows
are nonempty and the first one has at least two fields, parsing returns one
`CSVPoint` per surviving row, built from the row's first two fields. -/
theorem parseCSV_success {text : List Char} {flag : Bool} {r0 : List ℚ} {rest : List (List ℚ)}
    (hcons : numericRows text flag = r0 :: rest) (hw : 2 ≤ r0.length) :
    parseCSV text flag =
      Except.ok ((r0 :: rest).map (fun r => { x := r.get? 0, y := r.get? 1 })) := by
  have h2 : ¬ (nonBlankLines text).length < 2 := by
    have := two_lines_of_numericRows_ne_nil
      (show numericRows text flag ≠ [] by rw [hcons]; simp)
    omega
  unfold parseCSV
  rw [if_neg h2, hcons]
  simp only
  rw [if_neg (by omega)]

/-- C1: CSV parsing fails exactly under the three specified conditions, each
with its specified error message — fewer than two non-blank lines; no
surviving fully-numeric data row; a surviving numeric row width (of the first
surviving row, which is the one the code inspects) below 2 — and in every
other case succeeds with one point per surviving row, in input order, with x
read from the row's first field and y from its second. -/
theorem parseCSV_C1 (text : List Char) (dropLastColumn : Bool) :
    ((nonBlankLines text).length < 2 →
      parseCSV text dropLastColumn =
        Except.error "CSV file must contain a header and at least one data row.") ∧
    (2 ≤ (nonBlankLines text).length → numericRows text dropLastColumn = [] →
      parseCSV text dropLastColumn =
        Except.error "No valid numeric data rows found in the CSV file.") ∧
    (∀ r0 rest, numericRows text dropLastColumn = r0 :: rest → r0.length < 2 →
      parseCSV text dropLastColumn =
        Except.error ("The processed data has only " ++ toString r0.length ++
          " feature(s). At least two are required for 2D visualization.")) ∧
    (∀ r0 rest, numericRows text dropLastColumn = r0 :: rest → 2 ≤ r0.length →
      parseCSV text dropLastColumn =
        Except.ok ((r0 :: rest).map (fun r => { x := r.get? 0, y := r.get? 1 }))) := by
  refine ⟨?_, ?_, ?_, ?_⟩
  · intro h
    unfold parseCSV
    rw [if_pos h]
  · intro h2 hnil
    unfold parseCSV
    rw [if_neg (by omega), hnil]
  · intro r0 rest hcons hlen
    have h2 : ¬ (nonBlankLines text).length < 2 := by
      have := two_lines_of_numericRows_ne_nil
        (show numericRows text dropLastColumn ≠ [] by rw [hcons]; simp)
      omega
    unfold parseCSV
    rw [if_neg h2, hcons]
    simp only
    rw [if_pos hlen]
  · intro r0 rest hcons hw
    exact parseCSV_success hcons hw

/-- Concrete CSV text `"h1,h2\n1,2\n3,4"` used by the C1 witness. -/
def csvTextA : List Char := ['h', '1', ',', 'h', '2', '\n', '1', ',', '2', '\n', '3', ',', '4']

/-- Witness for C1: the success branch on a concrete two-row file. -/
theorem parseCSV_C1_witness :
    numericRows csvTextA false = [[1, 2], [3, 4]] ∧
    parseCSV csvTextA false =
      Except.ok [{ x := some 1, y := some 2 }, { x := some 3, y := some 4 }] := by
  have hrows : numericRows csvTextA false = [[1, 2], [3, 4]] := by
    simp [csvTextA, numericRows, nonBlankLines, splitOnChar, trimChars, numericRow,
      parseFloatM, parseExp, digitsToNat]
  refine ⟨hrows, ?_⟩
  have := (parseCSV_C1 csvTextA false).2.2.2 [1, 2] [[3, 4]] hrows (by norm_num)
  simpa using this

/-- C10: the feature-width check inspects only the first surviving numeric
row.  If the first surviving row has at least two fields but some later
surviving row has exactly one field, parsing succeeds and that later row
yields a point whose y is read from a missing second field (an out-of-bounds
index, JavaScript `undefined`, modelled `none`) rather than being rejected. -/
theorem parseCSV_C10 (text : List Char) (flag : Bool) (r0 rj : List ℚ)
    (rest : List (List ℚ)) (j : ℕ)
    (hcons : numericRows text flag = r0 :: rest) (hw : 2 ≤ r0.length)
    (hj : rest.get? j = some rj) (hlen1 : rj.length = 1) :
    parseCSV text flag =
      Except.ok ((r0 :: rest).map (fun r => { x := r.get? 0, y := r.get? 1 })) ∧
    ((r0 :: rest).map (fun r => ({ x := r.get? 0, y := r.get? 1 } : CSVPoint))).get? (j + 1) =
      some { x := rj.get? 0, y := none } := by
  refine ⟨parseCSV_success hcons hw, ?_⟩
  rw [List.get?_map]
  have hcons' : (r0 :: rest).get? (j + 1) = some rj := by
    simpa using hj
  rw [hcons']
  have hy : rj.get? 1 = none := List.get?_eq_none.mpr (by omega)
  simp only [Option.map_some']
  rw [hy]

/-- Concrete CSV text `"h\n1,2\n3"` used by the C10 witness: the second data
row has a single field. -/
def csvTextB : List Char := ['h', '\n', '1', ',', '2', '\n', '3']

/-- Witness for C10: the ragged concrete file parses successfully and the
one-field row yields a point with `y = none`. -/
theorem parseCSV_C10_witness :
    numericRows csvTextB false = [[1, 2], [3]] ∧
    parseCSV csvTextB false =
      Except.ok [{ x := some 1, y := some 2 }, { x := some 3, y := none }] := by
  have hrows : numericRows csvTextB false = [[1, 2], [3]] := by
    simp [csvTextB, numericRows, nonBlankLines, splitOnChar, trimChars, numericRow,
      parseFloatM, parseExp, digitsToNat]
  refine ⟨hrows, ?_⟩
  have := (parseCSV_C10 csvTextB false [1, 2] [3] [[3]] 0 hrows (by norm_num) rfl rfl).1
  simpa using this

/-- Helper: the positional-split label is monotone in the sorted index. -/
theorem xsplit_label_mono (n : ℕ) (k : ℤ) (hk : 1 ≤ k) (i j : ℕ) (hij : i ≤ j) :
    min (k - 1) ⌊((i : ℚ) / (n : ℚ)) * (k : ℚ)⌋ ≤ min (k - 1) ⌊((j : ℚ) / (n : ℚ)) * (k : ℚ)⌋ := by
  have h1 : ((i : ℚ) / (n : ℚ)) * (k : ℚ) ≤ ((j : ℚ) / (n : ℚ)) * (k : ℚ) := by
    have hkq : (0 : ℚ) ≤ (k : ℚ) := by exact_mod_cast (by omega : (0 : ℤ) ≤ k)
    have hij' : ((i : ℚ)) ≤ ((j : ℚ)) := by exact_mod_cast hij
    gcongr
  exact min_le_min le_rfl (Int.floor_le_floor h1)

/-- Helper: the positional-split label lies in [0, k). -/
theorem xsplit_label_range (n : ℕ) (k : ℤ) (hk : 1 ≤ k) (i : ℕ) :
    0 ≤ min (k - 1) ⌊((i : ℚ) / (n : ℚ)) * (k : ℚ)⌋ ∧
    min (k - 1) ⌊((i : ℚ) / (n : ℚ)) * (k : ℚ)⌋ < k := by
  constructor
  · apply le_min (by omega)
    rw [Int.le_floor]
    push_cast
    positivity
  · calc min (k - 1) ⌊((i : ℚ) / (n : ℚ)) * (k : ℚ)⌋ ≤ k - 1 := min_le_left _ _
    _ < k := by omega

/-- Helper: the unfolded form of `assignClustersByXSplit` on a nonempty list
with positive k. -/
theorem xsplit_eq (data : List Point) (k : ℤ) (hne : data ≠ []) (hk : 1 ≤ k) :
    assignClustersByXSplit data k =
      (data.mergeSort (fun a b => decide (a.x ≤ b.x))).enum.map (fun ip =>
        { ip.2 with
            cluster := some (min (k - 1)
              ⌊((ip.1 : ℚ) / (((data.mergeSort (fun a b => decide (a.x ≤ b.x))).length : ℕ) : ℚ)) * (k : ℚ)⌋) }) := by
  unfold assignClustersByXSplit
  rw [if_neg]
  push_neg
  exact ⟨by simpa using hne, by omega⟩


/-- C4: for every point list and k ≥ 1, positional-split assignment labels
every point (the output has one labelled point per input point) with a cluster
in [0, k); the label sequence of the output — which is sorted by x ascending —
is non-decreasing; and applying the assignment to its own output reproduces it
(idempotence under re-sorting). -/
theorem assignClustersByXSplit_C4 (data : List Point) (k : ℤ) (hk : 1 ≤ k) :
    (assignClustersByXSplit data k).length = data.length ∧
    (∀ p ∈ assignClustersByXSplit data k, ∃ c, p.cluster = some c ∧ 0 ≤ c ∧ c < k) ∧
    List.Chain' (· ≤ ·) ((assignClustersByXSplit data k).map (fun p => p.cluster.getD 0)) ∧
    assignClustersByXSplit (assignClustersByXSplit data k) k = assignClustersByXSplit data k := by
  rcases eq_or_ne data [] with hd | hd
  · subst hd
    have h0 : assignClustersByXSplit ([] : List Point) k = [] := by
      unfold assignClustersByXSplit
      rw [if_pos]
      left
      rfl
    refine ⟨by rw [h0], by rw [h0]; intro p hp; simp at hp, by rw [h0]; simp, by rw [h0, h0]⟩
  · have heq := xsplit_eq data k hd hk
    have hlen : (assignClustersByXSplit data k).length = data.length := by
      rw [heq]
      simp [List.length_map, List.enum_length, List.length_mergeSort]
    refine ⟨hlen, ?_, ?_, ?_⟩
    · intro p hp
      rw [heq, List.mem_map] at hp
      obtain ⟨ip, _hmem, rfl⟩ := hp
      refine ⟨_, rfl, xsplit_label_range _ k hk ip.1⟩
    · rw [heq, List.map_map]
      have hcomp : ((fun p => p.cluster.getD 0) ∘ (fun ip : ℕ × Point =>
          { ip.2 with
              cluster := some (min (k - 1)
                ⌊((ip.1 : ℚ) / (((data.mergeSort (fun a b => decide (a.x ≤ b.x))).length : ℕ) : ℚ)) * (k : ℚ)⌋) })) =
          (fun i : ℕ => min (k - 1)
            ⌊((i : ℚ) / (((data.mergeSort (fun a b => decide (a.x ≤ b.x))).length : ℕ) : ℚ)) * (k : ℚ)⌋) ∘ Prod.fst := rfl
      rw [hcomp, ← List.map_map, List.enum_map_fst]
      rw [List.chain'_map]
      generalize (data.mergeSort (fun a b => decide (a.x ≤ b.x))).length = n
      cases n with
      | zero => simp
      | succ m =>
        rw [List.chain'_range_succ]
        intro i him
        exact xsplit_label_mono _ k hk i (i + 1) (by omega)
    · have htrans : ∀ a b c : Point, (fun a b => decide (a.x ≤ b.x)) a b = true →
          (fun a b => decide (a.x ≤ b.x)) b c = true → (fun a b => decide (a.x ≤ b.x)) a c = true := by
        intro a b c hab hbc
        simp only [decide_eq_true_eq] at hab hbc ⊢
        exact le_trans hab hbc
      have htotal : ∀ a b : Point, ((fun a b => decide (a.x ≤ b.x)) a b ||
          (fun a b => decide (a.x ≤ b.x)) b a) = true := by
        intro a b
        simp only [Bool.or_eq_true, decide_eq_true_eq]
        exact le_total a.x b.x
      have hs := List.sorted_mergeSort htrans htotal data
      have hout_ne : assignClustersByXSplit data k ≠ [] := by
        intro hnil
        rw [hnil] at hlen
        exact hd (List.eq_nil_of_length_eq_zero hlen.symm)
      have hpw : List.Pairwise (fun a b : Point => (decide (a.x ≤ b.x)) = true)
          (assignClustersByXSplit data k) := by
        rw [heq, List.pairwise_iff_getElem]
        intro i j hi hj hij
        simp only [List.getElem_map, List.getElem_enum]
        rw [List.pairwise_iff_getElem] at hs
        have hi' : i < (data.mergeSort (fun a b => decide (a.x ≤ b.x))).length := by
          simpa [List.enum_length] using hi
        have hj' : j < (data.mergeSort (fun a b => decide (a.x ≤ b.x))).length := by
          simpa [List.enum_length] using hj
        exact hs i j hi' hj' hij
      rw [xsplit_eq (assignClustersByXSplit data k) k hout_ne hk,
        List.mergeSort_of_sorted hpw]
      apply List.ext_getElem
      · simp [heq, List.length_map, List.enum_length]
      · intro i h1 h2
        simp only [List.getElem_map, List.getElem_enum, heq, hlen]
        simp [heq, List.length_map, List.enum_length, List.length_mergeSort]

/-- Witness for C4 at a concrete two-point list with k = 2. -/
theorem assignClustersByXSplit_C4_witness :
    (assignClustersByXSplit [{ x := 1, y := 2, cluster := none },
        { x := 0, y := 5, cluster := none }] 2).length = 2 ∧
    (∀ p ∈ assignClustersByXSplit [{ x := 1, y := 2, cluster := none },
        { x := 0, y := 5, cluster := none }] 2, ∃ c, p.cluster = some c ∧ 0 ≤ c ∧ c < 2) ∧
    List.Chain' (· ≤ ·) ((assignClustersByXSplit [{ x := 1, y := 2, cluster := none },
        { x := 0, y := 5, cluster := none }] 2).map (fun p => p.cluster.getD 0)) ∧
    assignClustersByXSplit (assignClustersByXSplit [{ x := 1, y := 2, cluster := none },
        { x := 0, y := 5, cluster := none }] 2) 2 =
      assignClustersByXSplit [{ x := 1, y := 2, cluster := none },
        { x := 0, y := 5, cluster := none }] 2 :=
  assignClustersByXSplit_C4 [{ x := 1, y := 2, cluster := none },
    { x := 0, y := 5, cluster := none }] 2 (by norm_num)

/-- Helper: the `forEach` fold of the centroid assignment always ends on an
index of a centroid (the initial index 0 is only kept when it is valid). -/
theorem closestMean_fst_lt (p : Point) (means : List Point) (hne : means ≠ []) :
    (closestMean p means).1 < means.length := by
  unfold closestMean
  have hinv : ∀ acc : ℕ × Option ℚ,
      (acc.1 = 0 ∨ acc.1 < means.length) → ∀ im ∈ means.enum,
      (((fun acc im =>
        let d := distSq p im.2
        match acc.2 with
        | none => (im.1, some d)
        | some m => if d < m then (im.1, some d) else acc) acc im : ℕ × Option ℚ).1 = 0 ∨
       ((fun acc im =>
        let d := distSq p im.2
        match acc.2 with
        | none => (im.1, some d)
        | some m => if d < m then (im.1, some d) else acc) acc im : ℕ × Option ℚ).1 < means.length) := by
    intro acc hacc im him
    obtain ⟨i, q⟩ := im
    have hi : i < means.length := (List.mem_enum him).1
    rcases acc with ⟨a, b⟩
    cases b with
    | none => exact Or.inr hi
    | some m =>
      by_cases hlt : distSq p q < m
      · simp only [if_pos hlt]
        exact Or.inr hi
      · simp only [if_neg hlt]
        exact hacc
  have hres := List.foldlRecOn means.enum _ ((0 : ℕ), (none : Option ℚ))
    (Or.inl rfl) (fun b hb a ha => hinv b hb a ha)
  rcases hres with h0 | hlt
  · rw [h0]
    exact List.length_pos.mpr hne
  · exact hlt

/-- Helper: every output point of the centroid assignment carries a label in
[0, k). -/
theorem centroids_mem (data : List Point) (k : ℤ) (g : ℕ → ℚ) :
    ∀ p ∈ assignClustersByCentroids data k g, ∃ c, p.cluster = some c ∧ 0 ≤ c ∧ c < k := by
  intro p hp
  unfold assignClustersByCentroids at hp
  by_cases hguard : data.length = 0 ∨ k ≤ 0
  · rw [if_pos hguard] at hp
    simp at hp
  · rw [if_neg hguard] at hp
    push_neg at hguard
    obtain ⟨hne, hk⟩ := hguard
    rw [List.mem_map] at hp
    obtain ⟨q, _hq, rfl⟩ := hp
    have hmeans : ((List.range k.toNat).map (fun i =>
        data.getD (⌊g i * data.length⌋).toNat { x := 0, y := 0, cluster := none })) ≠ [] := by
      simp only [ne_eq, List.map_eq_nil_iff, List.range_eq_nil]
      omega
    have hlt := closestMean_fst_lt q _ hmeans
    rw [List.length_map, List.length_range] at hlt
    refine ⟨_, rfl, by positivity, ?_⟩
    have : ((closestMean q ((List.range k.toNat).map (fun i =>
        data.getD (⌊g i * data.length⌋).toNat { x := 0, y := 0, cluster := none }))).1 : ℤ)
        < (k.toNat : ℤ) := by exact_mod_cast hlt
    rwa [Int.toNat_of_nonneg (by omega)] at this


/-- Helper: every output point of the positional split carries a label in
[0, k). -/
theorem xsplit_mem (data : List Point) (k : ℤ) :
    ∀ p ∈ assignClustersByXSplit data k, ∃ c, p.cluster = some c ∧ 0 ≤ c ∧ c < k := by
  intro p hp
  by_cases hguard : data.length = 0 ∨ k ≤ 0
  · unfold assignClustersByXSplit at hp
    rw [if_pos hguard] at hp
    simp at hp
  · push_neg at hguard
    obtain ⟨hne, hk⟩ := hguard
    rw [xsplit_eq data k (by simpa using hne) (by omega)] at hp
    rw [List.mem_map] at hp
    obtain ⟨ip, _hmem, rfl⟩ := hp
    exact ⟨_, rfl, xsplit_label_range _ k (by omega) ip.1⟩

/-- Helper: the half-index labelling used by the Moons branches produces
labels in [0, 2). -/
theorem enumHalf_mem (data : List Point) (n : ℕ) :
    ∀ p ∈ data.enum.map (fun ip => { ip.2 with cluster := some (moonsHalfLabel n ip.1) }),
      ∃ c, p.cluster = some c ∧ 0 ≤ c ∧ c < 2 := by
  intro p hp
  rw [List.mem_map] at hp
  obtain ⟨ip, _hmem, rfl⟩ := hp
  refine ⟨_, rfl, ?_⟩
  unfold moonsHalfLabel
  split_ifs <;> omega

/-- Helper: the radius-threshold labelling used by the Circles branches
produces labels in [0, 2). -/
theorem circleMap_mem (data : List Point) :
    ∀ p ∈ data.map (fun p => { p with cluster := some (circleLabel p) }),
      ∃ c, p.cluster = some c ∧ 0 ≤ c ∧ c < 2 := by
  intro p hp
  rw [List.mem_map] at hp
  obtain ⟨q, _hq, rfl⟩ := hp
  refine ⟨_, rfl, ?_⟩
  unfold circleLabel
  split_ifs <;> omega

/-- Helper: on a nonempty list with k ≥ 1 the centroid assignment labels
every point with exactly one index in [0, k), preserving order and
coordinates. -/
theorem centroids_total (data : List Point) (k : ℤ) (g : ℕ → ℚ)
    (hne : data ≠ []) (hk : 1 ≤ k) :
    ∃ assignment : Point → ℤ, (∀ p, 0 ≤ assignment p ∧ assignment p < k) ∧
      assignClustersByCentroids data k g =
        data.map (fun p => { p with cluster := some (assignment p) }) := by
  have hguard : ¬ (data.length = 0 ∨ k ≤ 0) := by
    push_neg
    exact ⟨by simpa using hne, by omega⟩
  have hmeans : ((List.range k.toNat).map (fun i =>
      data.getD (⌊g i * data.length⌋).toNat { x := 0, y := 0, cluster := none })) ≠ [] := by
    simp only [ne_eq, List.map_eq_nil_iff, List.range_eq_nil]
    omega
  refine ⟨fun p => ((closestMean p ((List.range k.toNat).map (fun i =>
      data.getD (⌊g i * data.length⌋).toNat { x := 0, y := 0, cluster := none }))).1 : ℤ),
    fun p => ⟨by positivity, ?_⟩, ?_⟩
  · have hlt := closestMean_fst_lt p _ hmeans
    rw [List.length_map, List.length_range] at hlt
    have : ((closestMean p ((List.range k.toNat).map (fun i =>
        data.getD (⌊g i * data.length⌋).toNat { x := 0, y := 0, cluster := none }))).1 : ℤ)
        < (k.toNat : ℤ) := by exact_mod_cast hlt
    rwa [Int.toNat_of_nonneg (by omega)] at this
  · unfold assignClustersByCentroids
    rw [if_neg hguard]


/-- Helper: the noise loop preserves the label invariant (it only ever writes
the sentinel -1). -/
theorem markNoise_inv (pts : List Point) (cnt : ℕ) (g : ℕ → ℚ)
    (h : ∀ p ∈ pts, ∃ c, p.cluster = some c ∧ (c = -1 ∨ (0 ≤ c ∧ c < 3))) :
    ∀ p ∈ markNoise pts cnt g, ∃ c, p.cluster = some c ∧ (c = -1 ∨ (0 ≤ c ∧ c < 3)) := by
  unfold markNoise
  refine @List.foldlRecOn (List Point) ℕ
    (fun acc => ∀ p ∈ acc, ∃ c, p.cluster = some c ∧ (c = -1 ∨ (0 ≤ c ∧ c < 3)))
    (List.range cnt) _ pts h ?_
  intro acc hacc i _hi
  simp only
  set idx := (⌊g i * acc.length⌋).toNat with hidx
  cases hget : acc.get? idx with
  | none =>
    exact hacc
  | some q =>
    intro p hp
    rcases List.mem_or_eq_of_mem_set hp with hmem | rfl
    · exact hacc p hmem
    · exact ⟨-1, rfl, Or.inl rfl⟩

/-- Helper: every DBSCAN output label is -1 or in [0, k) for that branch's
k. -/
theorem runDBSCAN_mem (data : List Point) (eps : ℚ) (dt : DatasetType) (gc gn gm : ℕ → ℚ) :
    ∀ p ∈ (runDBSCAN data eps dt gc gn gm).data,
      ∃ c, p.cluster = some c ∧ (c = -1 ∨ (0 ≤ c ∧ c <
        (match dt with | .Moons => 2 | .Circles => 2 | _ => 3))) := by
  intro p hp
  cases dt with
  | Moons =>
    obtain ⟨c, hc, h0, h2⟩ := enumHalf_mem data data.length p hp
    exact ⟨c, hc, Or.inr ⟨h0, h2⟩⟩
  | Circles =>
    obtain ⟨c, hc, h0, h2⟩ := circleMap_mem data p hp
    exact ⟨c, hc, Or.inr ⟨h0, h2⟩⟩
  | Blobs =>
    refine markNoise_inv _ _ _ ?_ p hp
    intro q hq
    obtain ⟨c, hc, h0, h3⟩ := centroids_mem data 3 gc q hq
    exact ⟨c, hc, Or.inr ⟨h0, h3⟩⟩
  | Custom =>
    refine markNoise_inv _ _ _ ?_ p hp
    intro q hq
    obtain ⟨c, hc, h0, h3⟩ := centroids_mem data 3 gc q hq
    exact ⟨c, hc, Or.inr ⟨h0, h3⟩⟩


/-- C3: every point output by the four run operations carries a label that is
either -1 or in [0, k) for the k used by that branch (2 for the half-index and
radius rules, the configured n_clusters for the split/centroid paths, 3 for
the DBSCAN centroid path); the sentinel -1 can only appear in the DBSCAN
result; and on a nonempty list with k ≥ 1 nearest-random-centroid assignment
gives every point exactly one cluster index in [0, k). -/
theorem run_label_invariant_C3 (data : List Point) (sp km ag k : ℤ) (lk : LinkageType)
    (eps : ℚ) (dt : DatasetType) (g1 g2 g3 g4 g5 g6 g7 g8 g9 g : ℕ → ℚ)
    (hne : data ≠ []) (hk : 1 ≤ k) :
    (∀ p ∈ (runSpectralClustering data sp dt g1 g2).data,
      ∃ c, p.cluster = some c ∧ 0 ≤ c ∧ c <
        (match dt with | .Moons => 2 | .Circles => 2 | _ => sp)) ∧
    (∀ p ∈ (runKMeans data km dt g3 g4).data,
      ∃ c, p.cluster = some c ∧ 0 ≤ c ∧ c < km) ∧
    (∀ p ∈ (runAgglomerativeClustering data ag lk dt g5 g6).data,
      ∃ c, p.cluster = some c ∧ 0 ≤ c ∧ c < ag) ∧
    (∀ p ∈ (runDBSCAN data eps dt g7 g8 g9).data,
      ∃ c, p.cluster = some c ∧ (c = -1 ∨ (0 ≤ c ∧ c <
        (match dt with | .Moons => 2 | .Circles => 2 | _ => 3)))) ∧
    (∃ assignment : Point → ℤ, (∀ p, 0 ≤ assignment p ∧ assignment p < k) ∧
      assignClustersByCentroids data k g =
        data.map (fun p => { p with cluster := some (assignment p) })) := by
  refine ⟨?_, ?_, ?_, runDBSCAN_mem data eps dt g7 g8 g9, centroids_total data k g hne hk⟩
  · cases dt with
    | Moons => exact enumHalf_mem data data.length
    | Circles => exact circleMap_mem data
    | Blobs => exact centroids_mem data sp g1
    | Custom => exact centroids_mem data sp g1
  · cases dt with
    | Moons => exact xsplit_mem data km
    | Circles => exact xsplit_mem data km
    | Blobs => exact centroids_mem data km g3
    | Custom => exact centroids_mem data km g3
  · cases dt with
    | Moons => exact xsplit_mem data ag
    | Circles => exact xsplit_mem data ag
    | Blobs => exact centroids_mem data ag g5
    | Custom => exact centroids_mem data ag g5

/-- Witness for C3 at a concrete one-point list. -/
theorem run_label_invariant_C3_witness :
    (∀ p ∈ (runSpectralClustering [{ x := 0, y := 0, cluster := none }] 2 .Circles
        (fun _ => 0) (fun _ => 0)).data,
      ∃ c, p.cluster = some c ∧ 0 ≤ c ∧ c < 2) ∧
    (∀ p ∈ (runKMeans [{ x := 0, y := 0, cluster := none }] 2 .Circles
        (fun _ => 0) (fun _ => 0)).data,
      ∃ c, p.cluster = some c ∧ 0 ≤ c ∧ c < 2) ∧
    (∀ p ∈ (runAgglomerativeClustering [{ x := 0, y := 0, cluster := none }] 2 .ward .Circles
        (fun _ => 0) (fun _ => 0)).data,
      ∃ c, p.cluster = some c ∧ 0 ≤ c ∧ c < 2) ∧
    (∀ p ∈ (runDBSCAN [{ x := 0, y := 0, cluster := none }] (1 / 2) .Circles
        (fun _ => 0) (fun _ => 0) (fun _ => 0)).data,
      ∃ c, p.cluster = some c ∧ (c = -1 ∨ (0 ≤ c ∧ c < 2))) ∧
    (∃ assignment : Point → ℤ, (∀ p, 0 ≤ assignment p ∧ assignment p < 1) ∧
      assignClustersByCentroids [{ x := 0, y := 0, cluster := none }] 1 (fun _ => 0) =
        ([{ x := 0, y := 0, cluster := none }] : List Point).map
          (fun p => { p with cluster := some (assignment p) })) :=
  run_label_invariant_C3 [{ x := 0, y := 0, cluster := none }] 2 2 2 1 .ward (1 / 2) .Circles
    (fun _ => 0) (fun _ => 0) (fun _ => 0) (fun _ => 0) (fun _ => 0) (fun _ => 0)
    (fun _ => 0) (fun _ => 0) (fun _ => 0) (fun _ => 0) (by simp) (by norm_num)

/-- Helper: overwriting one position changes a count by at most one. -/
theorem countP_set_le (pred : Point → Bool) (l : List Point) (i : ℕ) (a : Point) :
    (l.set i a).countP pred ≤ l.countP pred + 1 := by
  by_cases h : i < l.length
  · rw [List.countP_set pred l i a h]
    split_ifs <;> omega
  · rw [List.set_eq_of_length_le (by omega)]
    omega

/-- Helper: `cnt` noise writes increase the noise count by at most `cnt`. -/
theorem countP_markNoise_le (pred : Point → Bool) (pts : List Point) (g : ℕ → ℚ) :
    ∀ cnt, (markNoise pts cnt g).countP pred ≤ pts.countP pred + cnt := by
  intro cnt
  induction cnt with
  | zero => simp [markNoise]
  | succ n ih =>
    unfold markNoise at ih ⊢
    rw [List.range_succ, List.foldl_append, List.foldl_cons, List.foldl_nil]
    simp only
    set acc := (List.range n).foldl (fun acc i =>
      let idx := (⌊g i * acc.length⌋).toNat
      match acc.get? idx with
      | some p => acc.set idx { p with cluster := some (-1) }
      | none => acc) pts with hacc
    cases hget : acc.get? ((⌊g n * acc.length⌋).toNat) with
    | none =>
      show acc.countP pred ≤ pts.countP pred + (n + 1)
      omega
    | some q =>
      calc (acc.set ((⌊g n * acc.length⌋).toNat)
            { q with cluster := some (-1) }).countP pred
          ≤ acc.countP pred + 1 := countP_set_le pred acc _ _
        _ ≤ pts.countP pred + n + 1 := by omega
        _ = pts.countP pred + (n + 1) := by omega


/-- C6: on Blobs/Custom data of length n (for every draw stream) the DBSCAN
mock labels at most ⌊0.05 n⌋ points with the noise sentinel -1, and every
point keeps a label that is -1 or lies in [0, 3) from the fixed k = 3 centroid
assignment. -/
theorem runDBSCAN_noise_C6 (data : List Point) (eps : ℚ) (dt : DatasetType)
    (gc gn gm : ℕ → ℚ) (hdt : dt = DatasetType.Blobs ∨ dt = DatasetType.Custom) :
    ((runDBSCAN data eps dt gc gn gm).data.countP
        (fun p => p.cluster == some (-1))) ≤ (⌊(data.length : ℚ) * (5 / 100)⌋).toNat ∧
    (∀ p ∈ (runDBSCAN data eps dt gc gn gm).data,
      ∃ c, p.cluster = some c ∧ (c = -1 ∨ (0 ≤ c ∧ c < 3))) := by
  have hzero : ∀ dt', (dt' = DatasetType.Blobs ∨ dt' = DatasetType.Custom) →
      ((runDBSCAN data eps dt' gc gn gm).data.countP
        (fun p => p.cluster == some (-1))) ≤ (⌊(data.length : ℚ) * (5 / 100)⌋).toNat := by
    intro dt' hdt'
    have hcount0 : (assignClustersByCentroids data 3 gc).countP
        (fun p => p.cluster == some (-1)) = 0 := by
      rw [List.countP_eq_zero]
      intro q hq
      obtain ⟨c, hc, h0, _h3⟩ := centroids_mem data 3 gc q hq
      simp [hc]
      omega
    have hbound := countP_markNoise_le (fun p => p.cluster == some (-1))
      (assignClustersByCentroids data 3 gc) gn ((⌊(data.length : ℚ) * (5 / 100)⌋).toNat)
    rcases hdt' with rfl | rfl
    · show ((markNoise (assignClustersByCentroids data 3 gc)
        ((⌊(data.length : ℚ) * (5 / 100)⌋).toNat) gn).countP
          (fun p => p.cluster == some (-1))) ≤ _
      omega
    · show ((markNoise (assignClustersByCentroids data 3 gc)
        ((⌊(data.length : ℚ) * (5 / 100)⌋).toNat) gn).countP
          (fun p => p.cluster == some (-1))) ≤ _
      omega
  constructor
  · exact hzero dt hdt
  · intro p hp
    have := runDBSCAN_mem data eps dt gc gn gm p hp
    rcases hdt with rfl | rfl
    · exact this
    · exact this

/-- Witness for C6 at a concrete one-point Blobs list. -/
theorem runDBSCAN_noise_C6_witness :
    ((runDBSCAN [{ x := 0, y := 0, cluster := none }] (1 / 2) DatasetType.Blobs
        (fun _ => 0) (fun _ => 0) (fun _ => 0)).data.countP
        (fun p => p.cluster == some (-1))) ≤
      (⌊(([{ x := 0, y := 0, cluster := none }] : List Point).length : ℚ) * (5 / 100)⌋).toNat ∧
    (∀ p ∈ (runDBSCAN [{ x := 0, y := 0, cluster := none }] (1 / 2) DatasetType.Blobs
        (fun _ => 0) (fun _ => 0) (fun _ => 0)).data,
      ∃ c, p.cluster = some c ∧ (c = -1 ∨ (0 ≤ c ∧ c < 3))) :=
  runDBSCAN_noise_C6 [{ x := 0, y := 0, cluster := none }] (1 / 2) DatasetType.Blobs
    (fun _ => 0) (fun _ => 0) (fun _ => 0) (Or.inl rfl)

/-- Helper: the nested binary maximum of four rationals bounds each of them
and equals one of them. -/
theorem max4_spec (s1 s2 s3 s4 : ℚ) :
    (s1 ≤ max (max (max s1 s2) s3) s4 ∧ s2 ≤ max (max (max s1 s2) s3) s4 ∧
     s3 ≤ max (max (max s1 s2) s3) s4 ∧ s4 ≤ max (max (max s1 s2) s3) s4) ∧
    (max (max (max s1 s2) s3) s4 = s1 ∨ max (max (max s1 s2) s3) s4 = s2 ∨
     max (max (max s1 s2) s3) s4 = s3 ∨ max (max (max s1 s2) s3) s4 = s4) := by
  constructor
  · refine ⟨?_, ?_, ?_, ?_⟩ <;> simp [le_max_iff]
  · rcases max_choice s1 s2 with h1 | h1 <;>
      rcases max_choice (max s1 s2) s3 with h2 | h2 <;>
      rcases max_choice (max (max s1 s2) s3) s4 with h3 | h3 <;>
      rw [h3] <;> try rw [h2] <;> try rw [h1]
    all_goals tauto

/-- Helper: on a four-element list the maxima fold evaluates to the nested
binary maximum per field (the `-Infinity` start is absorbed). -/
theorem maxMetricsFold_eq (r1 r2 r3 r4 : ClusterResult) :
    maxMetricsFold [r1, r2, r3, r4] =
      { silhouette := ((max (max (max r1.metrics.silhouette r2.metrics.silhouette)
          r3.metrics.silhouette) r4.metrics.silhouette : ℚ) : WithBot ℚ)
        calinskiHarabasz := ((max (max (max r1.metrics.calinskiHarabasz
          r2.metrics.calinskiHarabasz) r3.metrics.calinskiHarabasz)
          r4.metrics.calinskiHarabasz : ℚ) : WithBot ℚ)
        daviesBouldin := ((max (max (max r1.metrics.daviesBouldin r2.metrics.daviesBouldin)
          r3.metrics.daviesBouldin) r4.metrics.daviesBouldin : ℚ) : WithBot ℚ) } := by
  unfold maxMetricsFold
  simp only [List.foldl_cons, List.foldl_nil]
  congr 1

/-- Helper: a value equal to the nested maximum of a field over four results
is the true maximum of that field. -/
theorem fold_field_spec (a b c d : ClusterResult) (f : Metrics → ℚ) (m : WithBot ℚ)
    (hfold : m = ((max (max (max (f a.metrics) (f b.metrics)) (f c.metrics))
      (f d.metrics) : ℚ) : WithBot ℚ)) :
    (∀ r ∈ [a, b, c, d], ((f r.metrics : ℚ) : WithBot ℚ) ≤ m) ∧
    (∃ r ∈ [a, b, c, d], m = ((f r.metrics : ℚ) : WithBot ℚ)) := by
  subst hfold
  obtain ⟨⟨h1, h2, h3, h4⟩, hch⟩ :=
    max4_spec (f a.metrics) (f b.metrics) (f c.metrics) (f d.metrics)
  constructor
  · intro r hr
    simp only [List.mem_cons, List.not_mem_nil, or_false] at hr
    rcases hr with rfl | rfl | rfl | rfl <;> exact WithBot.coe_le_coe.mpr (by assumption)
  · rcases hch with h | h | h | h
    · exact ⟨a, by simp, by rw [h]⟩
    · exact ⟨b, by simp, by rw [h]⟩
    · exact ⟨c, by simp, by rw [h]⟩
    · exact ⟨d, by simp, by rw [h]⟩


set_option maxHeartbeats 1000000 in
/-- C7: the result aggregator produces exactly four results, in the fixed
order Spectral Clustering, K-Means, Agglomerative Clustering, DBSCAN, and the
folded maxima record (initialised at negative infinity per field) holds, for
each field, the true maximum of that field over the four results. -/
theorem runAnalysis_C7 (data : List Point) (params : AlgorithmParameters)
    (dt : DatasetType) (g : ℕ → ℕ → ℚ) (hne : data ≠ []) :
    (runAnalysisResults data params dt g).length = 4 ∧
    (runAnalysisResults data params dt g).map ClusterResult.algorithm =
      ["Spectral Clustering", "K-Means", "Agglomerative Clustering", "DBSCAN"] ∧
    ((∀ r ∈ runAnalysisResults data params dt g, ((r.metrics.silhouette : ℚ) : WithBot ℚ) ≤
        (maxMetricsFold (runAnalysisResults data params dt g)).silhouette) ∧
      (∃ r ∈ runAnalysisResults data params dt g,
        (maxMetricsFold (runAnalysisResults data params dt g)).silhouette =
          ((r.metrics.silhouette : ℚ) : WithBot ℚ))) ∧
    ((∀ r ∈ runAnalysisResults data params dt g, ((r.metrics.calinskiHarabasz : ℚ) : WithBot ℚ) ≤
        (maxMetricsFold (runAnalysisResults data params dt g)).calinskiHarabasz) ∧
      (∃ r ∈ runAnalysisResults data params dt g,
        (maxMetricsFold (runAnalysisResults data params dt g)).calinskiHarabasz =
          ((r.metrics.calinskiHarabasz : ℚ) : WithBot ℚ))) ∧
    ((∀ r ∈ runAnalysisResults data params dt g, ((r.metrics.daviesBouldin : ℚ) : WithBot ℚ) ≤
        (maxMetricsFold (runAnalysisResults data params dt g)).daviesBouldin) ∧
      (∃ r ∈ runAnalysisResults data params dt g,
        (maxMetricsFold (runAnalysisResults data params dt g)).daviesBouldin =
          ((r.metrics.daviesBouldin : ℚ) : WithBot ℚ))) := by
  have hlist : runAnalysisResults data params dt g =
      [runSpectralClustering data params.spectral_n_clusters dt (g 0) (g 1),
       runKMeans data params.kmeans_n_clusters dt (g 2) (g 3),
       runAgglomerativeClustering data params.agglomerative_n_clusters
         params.agglomerative_linkage dt (g 4) (g 5),
       runDBSCAN data params.dbscan_eps dt (g 6) (g 7) (g 8)] := rfl
  refine ⟨by rw [hlist]; rfl, ?_, ?_, ?_, ?_⟩
  · rw [hlist]
    simp only [List.map_cons, List.map_nil]
    rfl
  · rw [hlist]
    exact fold_field_spec _ _ _ _ Metrics.silhouette _ (by rw [maxMetricsFold_eq])
  · rw [hlist]
    exact fold_field_spec _ _ _ _ Metrics.calinskiHarabasz _ (by rw [maxMetricsFold_eq])
  · rw [hlist]
    exact fold_field_spec _ _ _ _ Metrics.daviesBouldin _ (by rw [maxMetricsFold_eq])


/-- Witness for C7 at a concrete one-point list. -/
theorem runAnalysis_C7_witness :
    (runAnalysisResults [{ x := 0, y := 0, cluster := none }]
      { spectral_n_clusters := 2, kmeans_n_clusters := 2, agglomerative_n_clusters := 2,
        agglomerative_linkage := LinkageType.ward, dbscan_eps := 1 / 2 }
      DatasetType.Moons (fun _ _ => 0)).length = 4 ∧
    (runAnalysisResults [{ x := 0, y := 0, cluster := none }]
      { spectral_n_clusters := 2, kmeans_n_clusters := 2, agglomerative_n_clusters := 2,
        agglomerative_linkage := LinkageType.ward, dbscan_eps := 1 / 2 }
      DatasetType.Moons (fun _ _ => 0)).map ClusterResult.algorithm =
      ["Spectral Clustering", "K-Means", "Agglomerative Clustering", "DBSCAN"] ∧
    ((∀ r ∈ runAnalysisResults [{ x := 0, y := 0, cluster := none }]
      { spectral_n_clusters := 2, kmeans_n_clusters := 2, agglomerative_n_clusters := 2,
        agglomerative_linkage := LinkageType.ward, dbscan_eps := 1 / 2 }
      DatasetType.Moons (fun _ _ => 0), ((r.metrics.silhouette : ℚ) : WithBot ℚ) ≤
        (maxMetricsFold (runAnalysisResults [{ x := 0, y := 0, cluster := none }]
          { spectral_n_clusters := 2, kmeans_n_clusters := 2, agglomerative_n_clusters := 2,
            agglomerative_linkage := LinkageType.ward, dbscan_eps := 1 / 2 }
          DatasetType.Moons (fun _ _ => 0))).silhouette) ∧
      (∃ r ∈ runAnalysisResults [{ x := 0, y := 0, cluster := none }]
        { spectral_n_clusters := 2, kmeans_n_clusters := 2, agglomerative_n_clusters := 2,
          agglomerative_linkage := LinkageType.ward, dbscan_eps := 1 / 2 }
        DatasetType.Moons (fun _ _ => 0),
        (maxMetricsFold (runAnalysisResults [{ x := 0, y := 0, cluster := none }]
          { spectral_n_clusters := 2, kmeans_n_clusters := 2, agglomerative_n_clusters := 2,
            agglomerative_linkage := LinkageType.ward, dbscan_eps := 1 / 2 }
          DatasetType.Moons (fun _ _ => 0))).silhouette =
          ((r.metrics.silhouette : ℚ) : WithBot ℚ))) ∧
    ((∀ r ∈ runAnalysisResults [{ x := 0, y := 0, cluster := none }]
      { spectral_n_clusters := 2, kmeans_n_clusters := 2, agglomerative_n_clusters := 2,
        agglomerative_linkage := LinkageType.ward, dbscan_eps := 1 / 2 }
      DatasetType.Moons (fun _ _ => 0), ((r.metrics.calinskiHarabasz : ℚ) : WithBot ℚ) ≤
        (maxMetricsFold (runAnalysisResults [{ x := 0, y := 0, cluster := none }]
          { spectral_n_clusters := 2, kmeans_n_clusters := 2, agglomerative_n_clusters := 2,
            agglomerative_linkage := LinkageType.ward, dbscan_eps := 1 / 2 }
          DatasetType.Moons (fun _ _ => 0))).calinskiHarabasz) ∧
      (∃ r ∈ runAnalysisResults [{ x := 0, y := 0, cluster := none }]
        { spectral_n_clusters := 2, kmeans_n_clusters := 2, agglomerative_n_clusters := 2,
          agglomerative_linkage := LinkageType.ward, dbscan_eps := 1 / 2 }
        DatasetType.Moons (fun _ _ => 0),
        (maxMetricsFold (runAnalysisResults [{ x := 0, y := 0, cluster := none }]
          { spectral_n_clusters := 2, kmeans_n_clusters := 2, agglomerative_n_clusters := 2,
            agglomerative_linkage := LinkageType.ward, dbscan_eps := 1 / 2 }
          DatasetType.Moons (fun _ _ => 0))).calinskiHarabasz =
          ((r.metrics.calinskiHarabasz : ℚ) : WithBot ℚ))) ∧
    ((∀ r ∈ runAnalysisResults [{ x := 0, y := 0, cluster := none }]
      { spectral_n_clusters := 2, kmeans_n_clusters := 2, agglomerative_n_clusters := 2,
        agglomerative_linkage := LinkageType.ward, dbscan_eps := 1 / 2 }
      DatasetType.Moons (fun _ _ => 0), ((r.metrics.daviesBouldin : ℚ) : WithBot ℚ) ≤
        (maxMetricsFold (runAnalysisResults [{ x := 0, y := 0, cluster := none }]
          { spectral_n_clusters := 2, kmeans_n_clusters := 2, agglomerative_n_clusters := 2,
            agglomerative_linkage := LinkageType.ward, dbscan_eps := 1 / 2 }
          DatasetType.Moons (fun _ _ => 0))).daviesBouldin) ∧
      (∃ r ∈ runAnalysisResults [{ x := 0, y := 0, cluster := none }]
        { spectral_n_clusters := 2, kmeans_n_clusters := 2, agglomerative_n_clusters := 2,
          agglomerative_linkage := LinkageType.ward, dbscan_eps := 1 / 2 }
        DatasetType.Moons (fun _ _ => 0),
        (maxMetricsFold (runAnalysisResults [{ x := 0, y := 0, cluster := none }]
          { spectral_n_clusters := 2, kmeans_n_clusters := 2, agglomerative_n_clusters := 2,
            agglomerative_linkage := LinkageType.ward, dbscan_eps := 1 / 2 }
          DatasetType.Moons (fun _ _ => 0))).daviesBouldin =
          ((r.metrics.daviesBouldin : ℚ) : WithBot ℚ))) :=
  runAnalysis_C7 [{ x := 0, y := 0, cluster := none }]
    { spectral_n_clusters := 2, kmeans_n_clusters := 2, agglomerative_n_clusters := 2,
      agglomerative_linkage := LinkageType.ward, dbscan_eps := 1 / 2 }
    DatasetType.Moons (fun _ _ => 0) (by simp)

/-- C2 counterexample: at the claimed bound n = 2 the Moons generator divides
0 by 0 (`i / (n_samples_out - 1)` with `n_samples_out = 1`), producing a
non-finite (NaN) x coordinate, so "finite, non-NaN for every n ≥ 2" fails. -/
theorem generateDataset_C2_counterexample :
    (2 : ℕ) ≤ 2 ∧ ∃ p ∈ generateDataset DatasetType.Moons 2 (fun q => q) (fun q => q)
      (fun _ => 0), p.x = none := by
  refine ⟨le_refl 2, ?_⟩
  simp [generateDataset, generateMoons, jsDiv]

/-- C2 (amended): for Moons, Blobs and Circles the generator returns exactly n
points for every n ≥ 2, and every coordinate is a finite (non-NaN) number
provided n ≥ 4 when the type is Moons (for n ∈ {2, 3} the moons generator
evaluates 0/0); Blobs and Circles need only n ≥ 2. -/
theorem generateDataset_C2_amended (cosPi sinPi : ℚ → ℚ) (g : ℕ → ℚ) (t : DatasetType)
    (n : ℕ) (ht : t = DatasetType.Moons ∨ t = DatasetType.Blobs ∨ t = DatasetType.Circles)
    (hn : 2 ≤ n) (hmoons : t = DatasetType.Moons → 4 ≤ n) :
    (generateDataset t n cosPi sinPi g).length = n ∧
    ∀ p ∈ generateDataset t n cosPi sinPi g, p.x.isSome ∧ p.y.isSome := by
  rcases ht with rfl | rfl | rfl
  · have h4 := hmoons rfl
    constructor
    · show (generateMoons n (8 / 100) cosPi sinPi g).length = n
      unfold generateMoons
      simp only [List.length_append, List.length_map, List.length_range]
      omega
    · intro p hp
      show p.x.isSome ∧ p.y.isSome
      have hout : (2 : ℚ) ≤ ((n / 2 : ℕ) : ℚ) := by
        have : (2 : ℕ) ≤ n / 2 := by omega
        exact_mod_cast this
      have hin : (2 : ℚ) ≤ ((n - n / 2 : ℕ) : ℚ) := by
        have : (2 : ℕ) ≤ n - n / 2 := by omega
        exact_mod_cast this
      unfold generateDataset generateMoons at hp
      rw [List.mem_append] at hp
      rcases hp with hp | hp <;> rw [List.mem_map] at hp <;> obtain ⟨i, _hi, rfl⟩ := hp
      · have hne : ((n / 2 : ℕ) : ℚ) - 1 ≠ 0 := by
          intro h0
          rw [sub_eq_zero] at h0
          rw [h0] at hout
          norm_num at hout
        simp [jsDiv, hne]
      · have hne : ((n - n / 2 : ℕ) : ℚ) - 1 ≠ 0 := by
          intro h0
          rw [sub_eq_zero] at h0
          rw [h0] at hin
          norm_num at hin
        simp [jsDiv, hne]
  · constructor
    · show (generateBlobs n 3 (1 / 2) g).length = n
      unfold generateBlobs
      simp
    · intro p hp
      unfold generateDataset generateBlobs at hp
      rw [List.mem_map] at hp
      obtain ⟨i, _hi, rfl⟩ := hp
      exact ⟨rfl, rfl⟩
  · constructor
    · show (generateCircles n (1 / 2) (5 / 100) cosPi sinPi g).length = n
      unfold generateCircles
      simp
    · intro p hp
      unfold generateDataset generateCircles at hp
      rw [List.mem_map] at hp
      obtain ⟨i, _hi, rfl⟩ := hp
      exact ⟨rfl, rfl⟩

/-- Witness for the amended C2 on the Moons generator at n = 4. -/
theorem generateDataset_C2_witness :
    (generateDataset DatasetType.Moons 4 (fun q => q) (fun q => q) (fun _ => 0)).length = 4 ∧
    ∀ p ∈ generateDataset DatasetType.Moons 4 (fun q => q) (fun q => q) (fun _ => 0),
      p.x.isSome ∧ p.y.isSome :=
  generateDataset_C2_amended (fun q => q) (fun q => q) (fun _ => 0) DatasetType.Moons 4
    (Or.inl rfl) (by norm_num) (fun _ => by norm_num)

/-- Helper: `mapSpread` only appends to the store (the original cells form a
prefix) and every reference it returns is fresh. -/
theorem mapSpread_spec (h : Heap) (refs : List ℕ) (f : ℕ → Point → Option ℤ) :
    (h <+: (mapSpread h refs f).1) ∧
    (∀ r ∈ (mapSpread h refs f).2, h.length ≤ r) := by
  unfold mapSpread
  refine @List.foldlRecOn (Heap × List ℕ) (ℕ × ℕ)
    (fun acc => (h <+: acc.1) ∧ (∀ r ∈ acc.2, h.length ≤ r))
    refs.enum (mapSpreadStep f) (h, []) ⟨List.prefix_refl h, by simp⟩ ?_
  intro acc hacc ir _hir
  obtain ⟨hpre, hfresh⟩ := hacc
  unfold mapSpreadStep
  constructor
  · exact hpre.trans (List.prefix_append _ _)
  · intro r hr
    simp only [List.mem_append, List.mem_singleton] at hr
    rcases hr with hr | rfl
    · exact hfresh r hr
    · exact hpre.length_le

/-- Helper: the `mapSpread` fold returns one reference per processed entry. -/
theorem mapSpread_sndLen (f : ℕ → Point → Option ℤ) :
    ∀ (l : List (ℕ × ℕ)) (acc : Heap × List ℕ),
      ((l.foldl (mapSpreadStep f) acc).2).length = acc.2.length + l.length := by
  intro l
  induction l with
  | nil => intro acc; simp
  | cons a l ih =>
    intro acc
    rw [List.foldl_cons, ih]
    simp [mapSpreadStep]
    omega

/-- Helper: `mapSpread` returns one reference per input reference. -/
theorem mapSpread_len (h : Heap) (refs : List ℕ) (f : ℕ → Point → Option ℤ) :
    (mapSpread h refs f).2.length = refs.length := by
  unfold mapSpread
  rw [mapSpread_sndLen f refs.enum (h, [])]
  simp [List.enum_length]

/-- Helper: appending to the store does not change existing cells. -/
theorem getD_of_append (h t : Heap) : ∀ i < h.length, (h ++ t).getD i dfltPoint = h.getD i dfltPoint := by
  intro i hi
  exact List.getD_append h t dfltPoint i hi

/-- Helper: the heap centroid assignment leaves existing cells unchanged and
returns only fresh references. -/
theorem centroidsH_spec (h : Heap) (refs : List ℕ) (k : ℤ) (g : ℕ → ℚ) :
    (∀ i < h.length, (assignCentroidsH h refs k g).1.getD i dfltPoint = h.getD i dfltPoint) ∧
    (∀ r ∈ (assignCentroidsH h refs k g).2, h.length ≤ r) := by
  unfold assignCentroidsH
  by_cases hguard : refs.length = 0 ∨ k ≤ 0
  · rw [if_pos hguard]
    exact ⟨fun i _ => rfl, by simp⟩
  · rw [if_neg hguard]
    obtain ⟨hpre, hfresh⟩ := mapSpread_spec h refs
      (fun _ v => some ((closestMean v ((List.range k.toNat).map (fun i =>
        h.getD (refs.getD (⌊g i * refs.length⌋).toNat 0) dfltPoint))).1 : ℤ))
    obtain ⟨t, ht⟩ := hpre
    exact ⟨fun i hi => by rw [← ht]; exact getD_of_append h t i hi, hfresh⟩

/-- Helper: the heap positional split leaves existing cells unchanged and
returns only fresh references. -/
theorem xsplitH_spec (h : Heap) (refs : List ℕ) (k : ℤ) :
    (∀ i < h.length, (assignXSplitH h refs k).1.getD i dfltPoint = h.getD i dfltPoint) ∧
    (∀ r ∈ (assignXSplitH h refs k).2, h.length ≤ r) := by
  unfold assignXSplitH
  by_cases hguard : refs.length = 0 ∨ k ≤ 0
  · rw [if_pos hguard]
    exact ⟨fun i _ => rfl, by simp⟩
  · rw [if_neg hguard]
    obtain ⟨hpre, hfresh⟩ := mapSpread_spec h
      (refs.mergeSort (fun a b => decide ((h.getD a dfltPoint).x ≤ (h.getD b dfltPoint).x)))
      (fun i _ => some (min (k - 1) ⌊((i : ℚ) / (((refs.mergeSort (fun a b =>
        decide ((h.getD a dfltPoint).x ≤ (h.getD b dfltPoint).x))).length : ℕ) : ℚ)) * (k : ℚ)⌋))
    obtain ⟨t, ht⟩ := hpre
    exact ⟨fun i hi => by rw [← ht]; exact getD_of_append h t i hi, hfresh⟩


/-- Helper: a store extension does not change the cells of its prefix. -/
theorem getD_of_storeExtension {h h' : Heap} (hpre : h <+: h') :
    ∀ i < h.length, h'.getD i dfltPoint = h.getD i dfltPoint := by
  obtain ⟨t, rfl⟩ := hpre
  exact getD_of_append h t

/-- Helper: the heap noise loop only mutates cells at references drawn from
`refs`; cells below any lower bound of `refs` are untouched (the draw-range
hypothesis keeps the picked position inside `refs`). -/
theorem markNoiseH_old (hh : Heap) (refs : List ℕ) (cnt : ℕ) (g : ℕ → ℚ) (n0 : ℕ)
    (hrefs : ∀ r ∈ refs, n0 ≤ r) (hg : ∀ i, 0 ≤ g i ∧ g i < 1)
    (hcnt : refs = [] → cnt = 0) :
    ∀ i < n0, (markNoiseH hh refs cnt g).getD i dfltPoint = hh.getD i dfltPoint := by
  rcases eq_or_ne refs [] with rfl | hne
  · rw [hcnt rfl]
    intro i _hi
    rfl
  · have hlen : 0 < refs.length := List.length_pos.mpr hne
    unfold markNoiseH
    refine @List.foldlRecOn Heap ℕ
      (fun acc => ∀ i < n0, acc.getD i dfltPoint = hh.getD i dfltPoint)
      (List.range cnt) _ hh (fun i _ => rfl) ?_
    intro acc hacc j _hj
    simp only
    intro i hi
    have hj0 := (hg j).1
    have hj1 := (hg j).2
    have hlenq : (0 : ℚ) < (refs.length : ℚ) := by exact_mod_cast hlen
    have hfl : ⌊g j * (refs.length : ℚ)⌋ < (refs.length : ℤ) := by
      rw [Int.floor_lt]
      push_cast
      nlinarith [mul_lt_mul_of_pos_right hj1 hlenq]
    have hidx : (⌊g j * (refs.length : ℚ)⌋).toNat < refs.length := by omega
    have hmem : refs.getD (⌊g j * (refs.length : ℚ)⌋).toNat 0 ∈ refs := by
      rw [List.getD_eq_getElem?_getD, List.getElem?_eq_getElem hidx]
      exact List.getElem_mem hidx
    have hge : n0 ≤ refs.getD (⌊g j * (refs.length : ℚ)⌋).toNat 0 := hrefs _ hmem
    rw [List.getD_eq_getElem?_getD,
      List.getElem?_set_ne (by omega), ← List.getD_eq_getElem?_getD]
    exact hacc i hi


/-- Helper: off the guard, the heap centroid assignment returns one reference
per input reference. -/
theorem centroidsH_len (h : Heap) (refs : List ℕ) (k : ℤ) (g : ℕ → ℚ)
    (hguard : ¬ (refs.length = 0 ∨ k ≤ 0)) :
    (assignCentroidsH h refs k g).2.length = refs.length := by
  unfold assignCentroidsH
  rw [if_neg hguard]
  exact mapSpread_len h refs _

/-- Helper: the heap DBSCAN run leaves existing cells unchanged — its noise
loop writes only to its own freshly allocated objects — and returns only
fresh references. -/
theorem dbscanH_spec (h : Heap) (refs : List ℕ) (dt : DatasetType) (gc gn : ℕ → ℚ)
    (hg : ∀ i, 0 ≤ gn i ∧ gn i < 1) :
    (∀ i < h.length, (runDBSCANH h refs dt gc gn).1.getD i dfltPoint = h.getD i dfltPoint) ∧
    (∀ r ∈ (runDBSCANH h refs dt gc gn).2, h.length ≤ r) := by
  cases dt with
  | Moons =>
    obtain ⟨hpre, hfresh⟩ := mapSpread_spec h refs
      (fun i _ => some (moonsHalfLabel refs.length i))
    exact ⟨getD_of_storeExtension hpre, hfresh⟩
  | Circles =>
    obtain ⟨hpre, hfresh⟩ := mapSpread_spec h refs (fun _ v => some (circleLabel v))
    exact ⟨getD_of_storeExtension hpre, hfresh⟩
  | Blobs =>
    obtain ⟨hold, hfresh⟩ := centroidsH_spec h refs 3 gc
    have hcnt : (assignCentroidsH h refs 3 gc).2 = [] →
        (⌊(refs.length : ℚ) * (5 / 100)⌋).toNat = 0 := by
      intro hnil
      by_cases hguard : refs.length = 0 ∨ (3 : ℤ) ≤ 0
      · rcases hguard with hl | hl
        · rw [hl]
          norm_num
        · norm_num at hl
      · have := centroidsH_len h refs 3 gc hguard
        rw [hnil] at this
        simp at this
        omega
    refine ⟨?_, hfresh⟩
    intro i hi
    have h1 := markNoiseH_old (assignCentroidsH h refs 3 gc).1
      (assignCentroidsH h refs 3 gc).2 (⌊(refs.length : ℚ) * (5 / 100)⌋).toNat gn
      h.length hfresh hg hcnt i hi
    show (markNoiseH (assignCentroidsH h refs 3 gc).1 (assignCentroidsH h refs 3 gc).2
      (⌊(refs.length : ℚ) * (5 / 100)⌋).toNat gn).getD i dfltPoint = h.getD i dfltPoint
    rw [h1]
    exact hold i hi
  | Custom =>
    obtain ⟨hold, hfresh⟩ := centroidsH_spec h refs 3 gc
    have hcnt : (assignCentroidsH h refs 3 gc).2 = [] →
        (⌊(refs.length : ℚ) * (5 / 100)⌋).toNat = 0 := by
      intro hnil
      by_cases hguard : refs.length = 0 ∨ (3 : ℤ) ≤ 0
      · rcases hguard with hl | hl
        · rw [hl]
          norm_num
        · norm_num at hl
      · have := centroidsH_len h refs 3 gc hguard
        rw [hnil] at this
        simp at this
        omega
    refine ⟨?_, hfresh⟩
    intro i hi
    have h1 := markNoiseH_old (assignCentroidsH h refs 3 gc).1
      (assignCentroidsH h refs 3 gc).2 (⌊(refs.length : ℚ) * (5 / 100)⌋).toNat gn
      h.length hfresh hg hcnt i hi
    show (markNoiseH (assignCentroidsH h refs 3 gc).1 (assignCentroidsH h refs 3 gc).2
      (⌊(refs.length : ℚ) * (5 / 100)⌋).toNat gn).getD i dfltPoint = h.getD i dfltPoint
    rw [h1]
    exact hold i hi


/-- C9: none of the four run operations mutates its input.  In the store
model every cell that existed before a run is unchanged after it (so the
input list and the x, y and cluster fields of every input point are
preserved), and every reference in a run's output is freshly allocated —
in particular DBSCAN's in-place noise re-labelling touches only its own
copies.  Consequently the same dataset can be passed to all four runs in any
order with identical inputs observed by each. -/
theorem runs_frame_C9 (h : Heap) (refs : List ℕ) (sp km ag : ℤ) (dt : DatasetType)
    (g1 g2 g3 g4 gn : ℕ → ℚ) (hg : ∀ i, 0 ≤ gn i ∧ gn i < 1) :
    ((∀ i < h.length, (runSpectralH h refs sp dt g1).1.getD i dfltPoint = h.getD i dfltPoint) ∧
      (∀ r ∈ (runSpectralH h refs sp dt g1).2, h.length ≤ r)) ∧
    ((∀ i < h.length, (runKMeansH h refs km dt g2).1.getD i dfltPoint = h.getD i dfltPoint) ∧
      (∀ r ∈ (runKMeansH h refs km dt g2).2, h.length ≤ r)) ∧
    ((∀ i < h.length, (runAgglomerativeH h refs ag dt g3).1.getD i dfltPoint = h.getD i dfltPoint) ∧
      (∀ r ∈ (runAgglomerativeH h refs ag dt g3).2, h.length ≤ r)) ∧
    ((∀ i < h.length, (runDBSCANH h refs dt g4 gn).1.getD i dfltPoint = h.getD i dfltPoint) ∧
      (∀ r ∈ (runDBSCANH h refs dt g4 gn).2, h.length ≤ r)) := by
  refine ⟨?_, ?_, ?_, dbscanH_spec h refs dt g4 gn hg⟩
  · cases dt with
    | Moons =>
      obtain ⟨hpre, hfresh⟩ := mapSpread_spec h refs
        (fun i _ => some (moonsHalfLabel refs.length i))
      exact ⟨getD_of_storeExtension hpre, hfresh⟩
    | Circles =>
      obtain ⟨hpre, hfresh⟩ := mapSpread_spec h refs (fun _ v => some (circleLabel v))
      exact ⟨getD_of_storeExtension hpre, hfresh⟩
    | Blobs => exact centroidsH_spec h refs sp g1
    | Custom => exact centroidsH_spec h refs sp g1
  · cases dt with
    | Moons => exact xsplitH_spec h refs km
    | Circles => exact xsplitH_spec h refs km
    | Blobs => exact centroidsH_spec h refs km g2
    | Custom => exact centroidsH_spec h refs km g2
  · cases dt with
    | Moons => exact xsplitH_spec h refs ag
    | Circles => exact xsplitH_spec h refs ag
    | Blobs => exact centroidsH_spec h refs ag g3
    | Custom => exact centroidsH_spec h refs ag g3

/-- Witness for C9 at a concrete one-cell store. -/
theorem runs_frame_C9_witness :
    ((∀ i < ([{ x := 1, y := 2, cluster := none }] : Heap).length,
        (runSpectralH [{ x := 1, y := 2, cluster := none }] [0] 2 DatasetType.Blobs
          (fun _ => 1 / 2)).1.getD i dfltPoint =
        ([{ x := 1, y := 2, cluster := none }] : Heap).getD i dfltPoint) ∧
      (∀ r ∈ (runSpectralH [{ x := 1, y := 2, cluster := none }] [0] 2 DatasetType.Blobs
          (fun _ => 1 / 2)).2,
        ([{ x := 1, y := 2, cluster := none }] : Heap).length ≤ r)) ∧
    ((∀ i < ([{ x := 1, y := 2, cluster := none }] : Heap).length,
        (runKMeansH [{ x := 1, y := 2, cluster := none }] [0] 2 DatasetType.Blobs
          (fun _ => 1 / 2)).1.getD i dfltPoint =
        ([{ x := 1, y := 2, cluster := none }] : Heap).getD i dfltPoint) ∧
      (∀ r ∈ (runKMeansH [{ x := 1, y := 2, cluster := none }] [0] 2 DatasetType.Blobs
          (fun _ => 1 / 2)).2,
        ([{ x := 1, y := 2, cluster := none }] : Heap).length ≤ r)) ∧
    ((∀ i < ([{ x := 1, y := 2, cluster := none }] : Heap).length,
        (runAgglomerativeH [{ x := 1, y := 2, cluster := none }] [0] 2 DatasetType.Blobs
          (fun _ => 1 / 2)).1.getD i dfltPoint =
        ([{ x := 1, y := 2, cluster := none }] : Heap).getD i dfltPoint) ∧
      (∀ r ∈ (runAgglomerativeH [{ x := 1, y := 2, cluster := none }] [0] 2 DatasetType.Blobs
          (fun _ => 1 / 2)).2,
        ([{ x := 1, y := 2, cluster := none }] : Heap).length ≤ r)) ∧
    ((∀ i < ([{ x := 1, y := 2, cluster := none }] : Heap).length,
        (runDBSCANH [{ x := 1, y := 2, cluster := none }] [0] DatasetType.Blobs
          (fun _ => 1 / 2) (fun _ => 1 / 2)).1.getD i dfltPoint =
        ([{ x := 1, y := 2, cluster := none }] : Heap).getD i dfltPoint) ∧
      (∀ r ∈ (runDBSCANH [{ x := 1, y := 2, cluster := none }] [0] DatasetType.Blobs
          (fun _ => 1 / 2) (fun _ => 1 / 2)).2,
        ([{ x := 1, y := 2, cluster := none }] : Heap).length ≤ r)) :=
  runs_frame_C9 [{ x := 1, y := 2, cluster := none }] [0] 2 2 2 DatasetType.Blobs
    (fun _ => 1 / 2) (fun _ => 1 / 2) (fun _ => 1 / 2) (fun _ => 1 / 2) (fun _ => 1 / 2)
    (fun _ => ⟨by norm_num, by norm_num⟩)

end SCV
